import Mathlib

/-!
Verification of the CostDataRetriever Lambda (src/CostDataRetriever/lambda_function.py).

The Python module is shallowly embedded here.  Dynamic Python values that can
appear in the JSON envelopes and in the collaborator responses are modelled by
the inductive type `JValue` (None, bool, float, str, list, dict).  Python
floats are idealised as rationals; exceptions raised and caught inside the
`try` of `get_ec2_cpu_utilization` are modelled by `Except String` (the string
is the model of `str(e)`), and exceptions that escape `lambda_handler` by
`Except Fault`.  The two boto3 collaborators are an explicit environment
(`Env`): each is a function from the instance id argument to either a raised
exception or a response value.  `json.dumps` and `json.loads` are modelled by
an executable encoder (`dumps`) and recursive-descent decoder (`loads`) for
the JSON fragment the program exchanges.
-/

namespace CostDataRetriever

/-- Dynamic (JSON-shaped) Python values: `None`, `bool`, `float`, `str`,
`list`, `dict` with string keys. -/
inductive JValue where
  | null
  | bool (b : Bool)
  | num (q : ℚ)
  | str (s : String)
  | arr (elems : List JValue)
  | obj (members : List (String × JValue))

/-- Python dict lookup: when a key occurs several times in the association
list the latest binding wins, as in a Python dict built by repeated insertion. -/
def pyLookup (k : String) : List (String × JValue) → Option JValue
  | [] => none
  | (k1, v) :: rest =>
    match pyLookup k rest with
    | some r => some r
    | none => if k1 = k then some v else none

/-- Floor of a rational number, computably (`Int.fdiv` is floor division). -/
def qfloor (q : ℚ) : ℤ := Int.fdiv q.num (q.den : ℤ)

/-- Model of the Python `round(x, 2)`: round to 2 decimal places.  Python
rounds floats to the nearest representable value (ties to even in binary);
the rational idealisation rounds half up.  Both the embedded code and the
formalised spec statements use this same function, so every claim about
rounding is settled against one rounding model. -/
def round2 (q : ℚ) : ℚ := (qfloor (q * 100 + 1/2) : ℚ) / 100

/-- The decimal digit character for `n < 10`. -/
def digitChar (n : ℕ) : Char := Char.ofNat (48 + n)

/-- Decimal digits of a natural number, most significant first; the fuel is
only there to make the recursion structural, `renderNat` supplies enough. -/
def renderNatAux : ℕ → ℕ → List Char
  | 0, _ => []
  | fuel + 1, n => if n < 10 then [digitChar n] else renderNatAux fuel (n / 10) ++ [digitChar (n % 10)]

/-- Decimal digits of a natural number (no leading zeros, `0` gives "0"). -/
def renderNat (n : ℕ) : List Char := renderNatAux (n + 1) n

/-- The smallest exponent `k` with `d ∣ 10 ^ k`, when one at most `d` exists
(it does whenever `d` has only 2 and 5 as prime factors); `0` otherwise. -/
def decExp (d : ℕ) : ℕ := (((List.range (d + 1)).find? fun k => decide (d ∣ 10 ^ k)).getD 0)

/-- `k` zero characters. -/
def padZeros (k : ℕ) : List Char := List.replicate k '0'

/-- Model of `repr` of a Python float (what `json.dumps` and an f-string print
for a float): the exact decimal expansion with the fewest digits, at least one
digit after the point, a leading minus sign when negative.  Faithful for every
float whose shortest round-tripping decimal is its exact value rendered
without an exponent; floats needing exponent notation are out of the model. -/
def renderNum (q : ℚ) : List Char :=
  let k := decExp q.den
  let c : ℤ := ((10 ^ k : ℕ) : ℤ) / (q.den : ℤ)
  let m : ℤ := q.num * c
  let n := m.natAbs
  let sign : List Char := if m < 0 then ['-'] else []
  sign ++
    (if k = 0 then renderNat n ++ ['.', '0']
     else renderNat (n / 10 ^ k) ++ '.' ::
       (padZeros (k - (renderNat (n % 10 ^ k)).length) ++ renderNat (n % 10 ^ k)))

/-- Hex digit characters (lowercase, as the Python json encoder emits). -/
def hexDigitChar (n : ℕ) : Char := if n < 10 then Char.ofNat (48 + n) else Char.ofNat (87 + n)

/-- Four hex digits of `n < 0x10000`, most significant first. -/
def hex4 (n : ℕ) : List Char :=
  [hexDigitChar (n / 4096 % 16), hexDigitChar (n / 256 % 16), hexDigitChar (n / 16 % 16), hexDigitChar (n % 16)]

/-- How the Python json encoder (default `ensure_ascii=True`) writes one
character inside a string literal: quote and backslash escaped, the named
escapes for 8, 9, 10, 12, 13, every other character outside 0x20..0x7E as
a `\u` sequence, a surrogate pair for characters above 0xFFFF. -/
def escapeChar (c : Char) : List Char :=
  if c = '"' then ['\\', '"']
  else if c = '\\' then ['\\', '\\']
  else if c = '\n' then ['\\', 'n']
  else if c = '\t' then ['\\', 't']
  else if c = '\r' then ['\\', 'r']
  else if c.toNat = 8 then ['\\', 'b']
  else if c.toNat = 12 then ['\\', 'f']
  else if c.toNat < 0x20 ∨ (0x7E < c.toNat ∧ c.toNat < 0x10000) then '\\' :: 'u' :: hex4 c.toNat
  else if 0x10000 ≤ c.toNat then
    ('\\' :: 'u' :: hex4 (0xD800 + (c.toNat - 0x10000) / 0x400)) ++
      ('\\' :: 'u' :: hex4 (0xDC00 + (c.toNat - 0x10000) % 0x400))
  else [c]

/-- Escape every character of a string body. -/
def escapeChars : List Char → List Char
  | [] => []
  | c :: rest => escapeChar c ++ escapeChars rest

/-- A JSON string literal for `s`, as the Python json encoder writes it. -/
def encodeJString (s : String) : List Char := '"' :: (escapeChars s.data ++ ['"'])

mutual

/-- Model of `json.dumps` with its default separators, producing characters. -/
def dumpsVal : JValue → List Char
  | .null => 'n' :: 'u' :: 'l' :: 'l' :: []
  | .bool true => 't' :: 'r' :: 'u' :: 'e' :: []
  | .bool false => 'f' :: 'a' :: 'l' :: 's' :: 'e' :: []
  | .num q => renderNum q
  | .str s => encodeJString s
  | .arr es => '[' :: (dumpsElems es ++ [']'])
  | .obj ms => '{' :: (dumpsMembers ms ++ ['}'])

/-- Elements of a dumped JSON array, separated by ", ". -/
def dumpsElems : List JValue → List Char
  | [] => []
  | [v] => dumpsVal v
  | v :: rest => dumpsVal v ++ ',' :: ' ' :: dumpsElems rest

/-- Members of a dumped JSON object, "key: value" separated by ", ". -/
def dumpsMembers : List (String × JValue) → List Char
  | [] => []
  | [(k, v)] => encodeJString k ++ ':' :: ' ' :: dumpsVal v
  | (k, v) :: rest => (encodeJString k ++ ':' :: ' ' :: dumpsVal v) ++ ',' :: ' ' :: dumpsMembers rest

end

/-- Model of `json.dumps`. -/
def dumps (v : JValue) : String := String.mk (dumpsVal v)

/-- Model of the Python `str(x)` conversion an f-string applies.  Faithful for
the values the program interpolates: strings pass through, `None` prints
"None", bools "True"/"False", floats as `renderNum`.  Containers are printed
in their json form (Python would use `repr` quoting; no claim depends on it). -/
def pyStr : JValue → String
  | .null => "None"
  | .bool b => if b then "True" else "False"
  | .num q => String.mk (renderNum q)
  | .str s => s
  | .arr es => dumps (.arr es)
  | .obj ms => dumps (.obj ms)

/-- Python subscription `v[k]` with a string key, inside a `try`: the error
string is the model of `str(e)` for the KeyError or TypeError raised. -/
def pyGetKey (v : JValue) (k : String) : Except String JValue :=
  match v with
  | .obj ms =>
    match pyLookup k ms with
    | some x => .ok x
    | none => .error (String.mk ('\x27' :: (k.data ++ ['\x27'])))
  | _ => .error "object is not subscriptable"

/-- Python subscription `v[0]`, inside a `try`. -/
def pyIndex0 (v : JValue) : Except String JValue :=
  match v with
  | .arr (x :: _) => .ok x
  | .arr [] => .error "list index out of range"
  | .str s =>
    match s.data with
    | c :: _ => .ok (.str (String.mk [c]))
    | [] => .error "string index out of range"
  | .obj _ => .error "0"
  | _ => .error "object is not subscriptable"

/-- Python `v.get(k, default)` on a dict, inside a `try` (an AttributeError
when `v` is not a dict). -/
def pyDictGet (v : JValue) (k : String) (dflt : JValue) : Except String JValue :=
  match v with
  | .obj ms => .ok ((pyLookup k ms).getD dflt)
  | _ => .error "object has no attribute get"

/-- Python truthiness of a `JValue`. -/
def pyTruthy : JValue → Bool
  | .null => false
  | .bool b => b
  | .num q => decide (q ≠ 0)
  | .str s => decide (s ≠ "")
  | .arr es => !es.isEmpty
  | .obj ms => !ms.isEmpty

/-- The navigation `ec2_response[ "Reservations" ][0][ "Instances" ][0][ "InstanceType" ]`
performed by `get_ec2_cpu_utilization`, inside its `try`. -/
def navigateInstanceType (ec2_response : JValue) : Except String JValue :=
  match pyGetKey ec2_response "Reservations" with
  | .error e => .error e
  | .ok reservations =>
    match pyIndex0 reservations with
    | .error e => .error e
    | .ok r0 =>
      match pyGetKey r0 "Instances" with
      | .error e => .error e
      | .ok instances =>
        match pyIndex0 instances with
        | .error e => .error e
        | .ok i0 => pyGetKey i0 "InstanceType"

/-- `sum(p[ "Average" ] for p in data_points)`: left-to-right, failing at the
first element whose "Average" is missing or not a number (Python bools count
as numbers). -/
def sumAverages : List JValue → Except String ℚ
  | [] => .ok 0
  | p :: rest =>
    match pyGetKey p "Average" with
    | .error e => .error e
    | .ok (.num q) =>
      match sumAverages rest with
      | .error e => .error e
      | .ok s => .ok (q + s)
    | .ok (.bool b) =>
      match sumAverages rest with
      | .error e => .error e
      | .ok s => .ok ((if b then 1 else 0) + s)
    | .ok _ => .error "unsupported operand type for +"

/-- Lines 39-46 of the source: `cloudwatch_response.get('Datapoints', [])`,
then `if data_points:` guards the mean `sum(...) / len(...)`; an empty (or
missing, or otherwise falsy) datapoint list leaves `cpu_average = 0.0`. -/
def computeCpuAverage (cloudwatch_response : JValue) : Except String ℚ :=
  match pyDictGet cloudwatch_response "Datapoints" (.arr []) with
  | .error e => .error e
  | .ok data_points =>
    if pyTruthy data_points then
      match data_points with
      | .arr l =>
        match sumAverages l with
        | .error e => .error e
        | .ok total_cpu => .ok (total_cpu / (l.length : ℚ))
      | _ => .error "object is not iterable"
    else .ok 0

/-- One collaborator invocation, recorded in the order the resolver makes
them. -/
inductive CollabCall where
  | describeInstances (instance_id : JValue)
  | getMetricStatistics (instance_id : JValue)

/-- The two boto3 collaborators, as capability contracts: each maps the
instance id argument to a raised exception (`.error`, carrying `str(e)`) or a
response value.  The remaining arguments of the real calls (metric name,
namespace, the 24h window, the 3600s period, the Average statistic) are fixed
constants in the source, so they are not parameters of the model. -/
structure Env where
  describe_instances : JValue → Except String JValue
  get_metric_statistics : JValue → Except String JValue

/-- The failure-shaped summary built in the `except` block (lines 56-62). -/
def failureSummary (instance_id : JValue) (e : String) : List (String × JValue) :=
  [("instance_id", instance_id),
   ("error", .str e),
   ("message", .str ("Failed to retrieve data for " ++ pyStr instance_id ++ ". Check instance ID or permissions."))]

/-- The success-shaped summary returned on line 49-54. -/
def successSummary (instance_id instance_type : JValue) (cpu_average : ℚ) : List (String × JValue) :=
  [("instance_id", instance_id),
   ("instance_type", instance_type),
   ("average_cpu_utilization_24h", .num (round2 cpu_average)),
   ("message", .str ("Successfully retrieved data for " ++ pyStr instance_id ++ ". Average CPU: " ++
      String.mk (renderNum (round2 cpu_average)) ++ "%. Current Type: " ++ pyStr instance_type))]

/-- `get_ec2_cpu_utilization` (lines 9-62): describe the instance, navigate to
its type, query the metric statistics, average the datapoints; any exception
along the way is caught and turned into the failure-shaped summary.  The
second component records the collaborator calls made, in order. -/
def get_ec2_cpu_utilization (env : Env) (instance_id : JValue) :
    List (String × JValue) × List CollabCall :=
  match env.describe_instances instance_id with
  | .error e => (failureSummary instance_id e, [.describeInstances instance_id])
  | .ok ec2_response =>
    match navigateInstanceType ec2_response with
    | .error e => (failureSummary instance_id e, [.describeInstances instance_id])
    | .ok instance_type =>
      match env.get_metric_statistics instance_id with
      | .error e => (failureSummary instance_id e,
          [.describeInstances instance_id, .getMetricStatistics instance_id])
      | .ok cloudwatch_response =>
        match computeCpuAverage cloudwatch_response with
        | .error e => (failureSummary instance_id e,
            [.describeInstances instance_id, .getMetricStatistics instance_id])
        | .ok cpu_average =>
          (successSummary instance_id instance_type cpu_average,
           [.describeInstances instance_id, .getMetricStatistics instance_id])

/-- Is `c` a decimal digit character. -/
def isDigitChar (c : Char) : Bool := 48 ≤ c.toNat && c.toNat ≤ 57

/-- Consume a run of decimal digits, accumulating their value into `acc` and
their count into `cnt`. -/
def parseDigits : ℕ → ℕ → List Char → ℕ × ℕ × List Char
  | acc, cnt, [] => (acc, cnt, [])
  | acc, cnt, c :: rest =>
    if isDigitChar c then parseDigits (acc * 10 + (c.toNat - 48)) (cnt + 1) rest
    else (acc, cnt, c :: rest)

/-- Value of a hex digit character, upper or lower case. -/
def hexVal (c : Char) : Option ℕ :=
  if 48 ≤ c.toNat ∧ c.toNat ≤ 57 then some (c.toNat - 48)
  else if 97 ≤ c.toNat ∧ c.toNat ≤ 102 then some (c.toNat - 87)
  else if 65 ≤ c.toNat ∧ c.toNat ≤ 70 then some (c.toNat - 55)
  else none

/-- Body of a JSON string literal (after the opening quote), with the escape
sequences the Python json decoder accepts; a surrogate pair of `\u` escapes
combines into one character.  A lone surrogate escape, which Lean characters
cannot carry, falls back to `Char.ofNat` (the null character): the encoder
never emits one.  Raw control characters are rejected (`strict=True`). -/
def parseJStringBody : ℕ → List Char → Option (List Char × List Char)
  | 0, _ => none
  | _ + 1, [] => none
  | fuel + 1, c :: rest =>
    if c = '"' then some ([], rest)
    else if c = '\\' then
      match rest with
      | [] => none
      | e :: rest2 =>
        if e = '"' then (parseJStringBody fuel rest2).map fun p => ('"' :: p.1, p.2)
        else if e = '\\' then (parseJStringBody fuel rest2).map fun p => ('\\' :: p.1, p.2)
        else if e = '/' then (parseJStringBody fuel rest2).map fun p => ('/' :: p.1, p.2)
        else if e = 'b' then (parseJStringBody fuel rest2).map fun p => (Char.ofNat 8 :: p.1, p.2)
        else if e = 'f' then (parseJStringBody fuel rest2).map fun p => (Char.ofNat 12 :: p.1, p.2)
        else if e = 'n' then (parseJStringBody fuel rest2).map fun p => ('\n' :: p.1, p.2)
        else if e = 'r' then (parseJStringBody fuel rest2).map fun p => ('\x0d' :: p.1, p.2)
        else if e = 't' then (parseJStringBody fuel rest2).map fun p => ('\t' :: p.1, p.2)
        else if e = 'u' then
          match rest2 with
          | a :: b :: c2 :: d :: rest3 =>
            match hexVal a, hexVal b, hexVal c2, hexVal d with
            | some va, some vb, some vc, some vd =>
              let n := va * 4096 + vb * 256 + vc * 16 + vd
              if 0xD800 ≤ n ∧ n ≤ 0xDBFF then
                match rest3 with
                | e2 :: u2 :: a2 :: b2 :: c3 :: d2 :: rest5 =>
                  if e2 = '\\' ∧ u2 = 'u' then
                    match hexVal a2, hexVal b2, hexVal c3, hexVal d2 with
                    | some wa, some wb, some wc, some wd =>
                      let m := wa * 4096 + wb * 256 + wc * 16 + wd
                      if 0xDC00 ≤ m ∧ m ≤ 0xDFFF then
                        (parseJStringBody fuel rest5).map fun p =>
                          (Char.ofNat (0x10000 + (n - 0xD800) * 0x400 + (m - 0xDC00)) :: p.1, p.2)
                      else
                        (parseJStringBody fuel rest3).map fun p => (Char.ofNat n :: p.1, p.2)
                    | _, _, _, _ => (parseJStringBody fuel rest3).map fun p => (Char.ofNat n :: p.1, p.2)
                  else (parseJStringBody fuel rest3).map fun p => (Char.ofNat n :: p.1, p.2)
                | _ => (parseJStringBody fuel rest3).map fun p => (Char.ofNat n :: p.1, p.2)
              else
                (parseJStringBody fuel rest3).map fun p => (Char.ofNat n :: p.1, p.2)
            | _, _, _, _ => none
          | _ => none
        else none
    else if c.toNat < 0x20 then none
    else (parseJStringBody fuel rest).map fun p => (c :: p.1, p.2)

/-- Body of a JSON string literal, with enough fuel for its own input. -/
def parseJString (l : List Char) : Option (List Char × List Char) :=
  parseJStringBody (l.length + 1) l

/-- Exponent applied to a parsed JSON number. -/
def applyExp (base : ℚ) (pos : Bool) (e : ℕ) : ℚ :=
  if pos then base * 10 ^ e else base / 10 ^ e

/-- Digits of a JSON number exponent. -/
def parseExpDigitsPart (base : ℚ) (pos : Bool) : List Char → Option (ℚ × List Char)
  | c :: rest =>
    if isDigitChar c then
      match parseDigits (c.toNat - 48) 1 rest with
      | (e, _, rest1) => some (applyExp base pos e, rest1)
    else none
  | [] => none

/-- Sign and digits of a JSON number exponent. -/
def parseExpTail (base : ℚ) : List Char → Option (ℚ × List Char)
  | [] => none
  | c :: rest =>
    if c = '+' then parseExpDigitsPart base true rest
    else if c = '-' then parseExpDigitsPart base false rest
    else parseExpDigitsPart base true (c :: rest)

/-- Optional exponent part of a JSON number. -/
def parseExpPart (base : ℚ) : List Char → Option (ℚ × List Char)
  | [] => some (base, [])
  | c :: rest =>
    if c = 'e' ∨ c = 'E' then parseExpTail base rest
    else some (base, c :: rest)

/-- Optional fraction then optional exponent of a JSON number whose integer
part was `ip` (a fraction point must be followed by at least one digit). -/
def parseFracExp (ip : ℕ) : List Char → Option (ℚ × List Char)
  | [] => parseExpPart (ip : ℚ) []
  | c :: rest =>
    if c = '.' then
      match rest with
      | [] => none
      | c2 :: rest2 =>
        if isDigitChar c2 then
          match parseDigits (c2.toNat - 48) 1 rest2 with
          | (f, cnt, rest1) => parseExpPart ((ip : ℚ) + (f : ℚ) / (10 : ℚ) ^ cnt) rest1
        else none
    else parseExpPart (ip : ℚ) (c :: rest)

/-- An unsigned JSON number (`0` or a nonzero-led digit run, then fraction and
exponent). -/
def parsePosNumber : List Char → Option (ℚ × List Char)
  | [] => none
  | c :: rest =>
    if c = '0' then parseFracExp 0 rest
    else if isDigitChar c then
      match parseDigits (c.toNat - 48) 1 rest with
      | (ip, _, rest1) => parseFracExp ip rest1
    else none

/-- A JSON number with its optional leading minus sign. -/
def parseNumber : List Char → Option (ℚ × List Char)
  | [] => none
  | c :: rest =>
    if c = '-' then (parsePosNumber rest).map fun p => (-p.1, p.2)
    else parsePosNumber (c :: rest)

/-- Skip JSON whitespace. -/
def skipWs : List Char → List Char
  | c :: rest => if c = ' ' ∨ c = '\t' ∨ c = '\n' ∨ c = '\r' then skipWs rest else c :: rest
  | [] => []

/-- Insert one parsed object member as a Python dict would: an existing key
keeps its position and takes the new value, a new key is appended. -/
def insertMember : List (String × JValue) → String → JValue → List (String × JValue)
  | [], k, v => [(k, v)]
  | (k1, v1) :: rest, k, v =>
    if k1 = k then (k1, v) :: rest else (k1, v1) :: insertMember rest k v

/-- Fold the parsed members into a Python dict (duplicate keys: last value,
first position). -/
def dedupMembers (ms : List (String × JValue)) : List (String × JValue) :=
  ms.foldl (fun acc kv => insertMember acc kv.1 kv.2) []

mutual

/-- Recursive-descent model of the Python json decoder, one value.  The fuel
only bounds the nesting recursion; `loads` supplies more than any input can
consume (every recursive call follows at least one consumed character). -/
def parseValue : ℕ → List Char → Option (JValue × List Char)
  | 0, _ => none
  | fuel + 1, l =>
    match skipWs l with
    | '{' :: rest =>
      match skipWs rest with
      | '}' :: r => some (.obj [], r)
      | rest2 =>
        match parseMember1 fuel rest2 with
        | some (ms, r) => some (.obj (dedupMembers ms), r)
        | none => none
    | '[' :: rest =>
      match skipWs rest with
      | ']' :: r => some (.arr [], r)
      | rest2 =>
        match parseElement1 fuel rest2 with
        | some (es, r) => some (.arr es, r)
        | none => none
    | '"' :: rest =>
      match parseJString rest with
      | some (cs, r) => some (.str (String.mk cs), r)
      | none => none
    | 'n' :: 'u' :: 'l' :: 'l' :: rest => some (.null, rest)
    | 't' :: 'r' :: 'u' :: 'e' :: rest => some (.bool true, rest)
    | 'f' :: 'a' :: 'l' :: 's' :: 'e' :: rest => some (.bool false, rest)
    | l2 =>
      match parseNumber l2 with
      | some (q, r) => some (.num q, r)
      | none => none

/-- One or more `"key": value` members, comma separated, up to the closing
brace. -/
def parseMember1 : ℕ → List Char → Option (List (String × JValue) × List Char)
  | 0, _ => none
  | fuel + 1, l =>
    match skipWs l with
    | '"' :: rest =>
      match parseJString rest with
      | some (kcs, r1) =>
        match skipWs r1 with
        | ':' :: r2 =>
          match parseValue fuel r2 with
          | some (v, r3) =>
            (match skipWs r3 with
             | ',' :: r4 =>
               (match parseMember1 fuel r4 with
                | some (ms, r5) => some ((String.mk kcs, v) :: ms, r5)
                | none => none)
             | '}' :: r4 => some ([(String.mk kcs, v)], r4)
             | _ => none)
          | none => none
        | _ => none
      | none => none
    | _ => none

/-- One or more array elements, comma separated, up to the closing bracket. -/
def parseElement1 : ℕ → List Char → Option (List JValue × List Char)
  | 0, _ => none
  | fuel + 1, l =>
    match parseValue fuel l with
    | some (v, r1) =>
      (match skipWs r1 with
       | ',' :: r2 =>
         (match parseElement1 fuel r2 with
          | some (es, r3) => some (v :: es, r3)
          | none => none)
       | ']' :: r2 => some ([v], r2)
       | _ => none)
    | none => none

end

/-- Model of `json.loads`: parse one value, demand only whitespace after it. -/
def loads (s : String) : Option JValue :=
  match parseValue (s.data.length + 1) s.data with
  | some (v, rest) => if skipWs rest = [] then some v else none
  | none => none

/-- An exception escaping `lambda_handler` (nothing there is caught): the
kind of error and what it carries. -/
inductive Fault where
  | keyError (key : String)
  | typeError (message : String)
  | attributeError (message : String)
  | jsonDecodeError (message : String)
  | unsupportedApiPath (api_path : JValue)

/-- Python subscription `event[k]` outside any `try`: a missing key raises an
uncaught KeyError, a non-dict an uncaught TypeError. -/
def getKey (event : JValue) (k : String) : Except Fault JValue :=
  match event with
  | .obj ms =>
    match pyLookup k ms with
    | some v => .ok v
    | none => .error (.keyError k)
  | _ => .error (.typeError "object is not subscriptable")

/-- `lambda_handler` (lines 65-91): read `actionGroup` and `apiPath`; when the
path is the one supported, decode the request body, extract `instance_id`
(with `.get`, so a missing field yields None), run the resolver, and wrap its
summary (dumped to a JSON string) in the outbound envelope with status 200 and
the inbound action group, path and method echoed; any other path raises. -/
def lambda_handler (env : Env) (event : JValue) : Except Fault JValue :=
  match getKey event "actionGroup" with
  | .error f => .error f
  | .ok action =>
    match getKey event "apiPath" with
    | .error f => .error f
    | .ok api_path =>
      match api_path with
      | .str p =>
        if p = "/get_ec2_cpu_utilization" then
          match getKey event "requestBody" with
          | .error f => .error f
          | .ok request_body =>
            match getKey request_body "content" with
            | .error f => .error f
            | .ok content =>
              match getKey content "application/json" with
              | .error f => .error f
              | .ok content_json =>
                match getKey content_json "body" with
                | .error f => .error f
                | .ok body =>
                  match body with
                  | .str body_str =>
                    match loads body_str with
                    | none => .error (.jsonDecodeError "Expecting value")
                    | some parameters =>
                      match parameters with
                      | .obj ms =>
                        match getKey event "httpMethod" with
                        | .error f => .error f
                        | .ok http_method =>
                          .ok (.obj [("response", .obj
                            [("actionGroup", action),
                             ("apiPath", api_path),
                             ("httpMethod", http_method),
                             ("httpStatusCode", .num 200),
                             ("responseBody", .obj [("application/json", .obj [("body",
                               .str (dumps (.obj (get_ec2_cpu_utilization env
                                 ((pyLookup "instance_id" ms).getD .null)).1)))])])])])
                      | _ => .error (.attributeError "object has no attribute get")
                  | _ => .error (.typeError "the JSON object must be str, bytes or bytearray")
        else .error (.unsupportedApiPath api_path)
      | _ => .error (.unsupportedApiPath api_path)

/-- The inbound envelope shape the handler consumes, for theorem statements. -/
def mkEvent (action_group api_path http_method body : JValue) : JValue :=
  .obj [("actionGroup", action_group),
        ("apiPath", api_path),
        ("httpMethod", http_method),
        ("requestBody", .obj [("content", .obj [("application/json", .obj [("body", body)])])])]

/-- The outbound envelope shape the handler produces, for theorem statements. -/
def mkResponseEnvelope (action_group api_path http_method : JValue) (body : String) : JValue :=
  .obj [("response", .obj
    [("actionGroup", action_group),
     ("apiPath", api_path),
     ("httpMethod", http_method),
     ("httpStatusCode", .num 200),
     ("responseBody", .obj [("application/json", .obj [("body", .str body)])])])]

mutual

/-- Structural size of a `JValue`, a fuel bound for the parser. -/
def jsize : JValue → ℕ
  | .null => 1
  | .bool _ => 1
  | .num _ => 1
  | .str _ => 1
  | .arr es => 1 + jsizeElems es
  | .obj ms => 1 + jsizeMembers ms

/-- Size of array elements. -/
def jsizeElems : List JValue → ℕ
  | [] => 0
  | v :: rest => 1 + jsize v + jsizeElems rest

/-- Size of object members. -/
def jsizeMembers : List (String × JValue) → ℕ
  | [] => 0
  | (_, v) :: rest => 1 + jsize v + jsizeMembers rest

end

mutual

/-- Does a `JValue` lie in the image of the Python values the program can
hold: every number is a float, hence has an exact finite decimal expansion
(denominator dividing a power of ten), and every object is a dict, hence has
no duplicate keys. -/
def pyRepresentable : JValue → Bool
  | .null => true
  | .bool _ => true
  | .num q => decide (q.den ∣ 10 ^ q.den)
  | .str _ => true
  | .arr es => pyRepresentableElems es
  | .obj ms => decide ((ms.map Prod.fst).Nodup) && pyRepresentableMembers ms

/-- `pyRepresentable` over array elements. -/
def pyRepresentableElems : List JValue → Bool
  | [] => true
  | v :: rest => pyRepresentable v && pyRepresentableElems rest

/-- `pyRepresentable` over object member values. -/
def pyRepresentableMembers : List (String × JValue) → Bool
  | [] => true
  | (_, v) :: rest => pyRepresentable v && pyRepresentableMembers rest

end

/-- The metrics response for a list of per-bucket averages: what
`get_metric_statistics` returns when each bucket datapoint carries its
"Average" statistic. -/
def mkMetricsResponse (dps : List ℚ) : JValue :=
  .obj [("Datapoints", .arr (dps.map fun q => .obj [("Average", .num q)]))]

/-- The success shape of an `InstanceSummary`, as the spec lists it: exactly
the four success fields in order, and no error field. -/
def successShaped (s : List (String × JValue)) : Prop :=
  s.map Prod.fst = ["instance_id", "instance_type", "average_cpu_utilization_24h", "message"]
    ∧ pyLookup "error" s = none

/-- The failure shape of an `InstanceSummary`, as the spec lists it: exactly
the three failure fields in order, and neither an instance type nor an
average field. -/
def failureShaped (s : List (String × JValue)) : Prop :=
  s.map Prod.fst = ["instance_id", "error", "message"]
    ∧ pyLookup "instance_type" s = none ∧ pyLookup "average_cpu_utilization_24h" s = none

/-- Is a recorded collaborator call an inventory (describe_instances) call. -/
def isDescribeCall : CollabCall → Bool
  | .describeInstances _ => true
  | .getMetricStatistics _ => false

/-- The nested `event[ "requestBody" ][ "content" ][ "application/json" ][ "body" ]`
access chain of the handler, as one function for stating claims. -/
def bodyFetch (event : JValue) : Except Fault JValue :=
  match getKey event "requestBody" with
  | .error f => .error f
  | .ok request_body =>
    match getKey request_body "content" with
    | .error f => .error f
    | .ok content =>
      match getKey content "application/json" with
      | .error f => .error f
      | .ok content_json => getKey content_json "body"

/-- Does the parser stop reading a number at this continuation: empty, or a
head character that neither extends the digits nor opens an exponent. -/
def stopsNumber : List Char → Bool
  | [] => true
  | c :: _ => !(isDigitChar c) && !(c = 'e') && !(c = 'E')

theorem sumAverages_mk (dps : List ℚ) :
    sumAverages (dps.map fun q => .obj [("Average", .num q)]) = .ok dps.sum := by
  induction dps with
  | nil => simp [sumAverages]
  | cons q rest ih =>
    simp [sumAverages, pyGetKey, pyLookup, ih, Except.bind]

theorem computeCpuAverage_mk (dps : List ℚ) (hne : dps ≠ []) :
    computeCpuAverage (mkMetricsResponse dps) = .ok (dps.sum / (dps.length : ℚ)) := by
  have hmapne : dps.map (fun q => JValue.obj [("Average", .num q)]) ≠ [] := by
    simpa using hne
  simp [computeCpuAverage, mkMetricsResponse, pyDictGet, pyLookup, pyTruthy,
    List.isEmpty_iff, hmapne, sumAverages_mk, Except.bind]

/-- C1.  For every non-empty list of bucket datapoints returned by the
metrics collaborator, the value reported as `average_cpu_utilization_24h`
equals the unweighted arithmetic mean of the per-bucket "Average" values,
rounded to 2 decimal places by `round2`, with the rounding applied exactly
once, to the exact mean, at the end — never per bucket. -/
theorem spec_c1_average_is_mean_rounded_once (env : Env) (instance_id resp itype : JValue)
    (dps : List ℚ)
    (hdesc : env.describe_instances instance_id = Except.ok resp)
    (hnav : navigateInstanceType resp = Except.ok itype)
    (hmet : env.get_metric_statistics instance_id = Except.ok (mkMetricsResponse dps))
    (hne : dps ≠ []) :
    pyLookup "average_cpu_utilization_24h" (get_ec2_cpu_utilization env instance_id).1
      = some (.num (round2 (dps.sum / (dps.length : ℚ)))) := by
  simp [get_ec2_cpu_utilization, hdesc, hnav, hmet, computeCpuAverage_mk dps hne,
    successSummary, pyLookup]

/-- C1 witness at datapoints [10, 20, 30]. -/
theorem spec_c1_witness :
    (let env : Env :=
      { describe_instances := fun _ => Except.ok (.obj [("Reservations",
          .arr [.obj [("Instances", .arr [.obj [("InstanceType", .str "t3.micro")]])]])])
        get_metric_statistics := fun _ => Except.ok (mkMetricsResponse [10, 20, 30]) };
    pyLookup "average_cpu_utilization_24h" (get_ec2_cpu_utilization env (.str "i-123")).1
      = some (.num (round2 (([10, 20, 30] : List ℚ).sum / (([10, 20, 30] : List ℚ).length : ℚ))))) :=
  spec_c1_average_is_mean_rounded_once _ (.str "i-123") _ (.str "t3.micro") [10, 20, 30]
    rfl rfl rfl (by simp)

theorem round2_zero : round2 0 = 0 := by
  have h1 : (0 * 100 + 1/2 : ℚ) = 1/2 := by norm_num
  rw [round2, h1]
  have hn : ((1:ℚ)/2).num = 1 := by norm_num
  have hd : ((1:ℚ)/2).den = 2 := by norm_num
  rw [qfloor, hn, hd]
  have hz : Int.fdiv 1 ((2 : ℕ) : ℤ) = 0 := by decide
  rw [hz]
  norm_num

theorem computeCpuAverage_empty :
    computeCpuAverage (mkMetricsResponse []) = Except.ok 0 := by
  simp [computeCpuAverage, mkMetricsResponse, pyDictGet, pyLookup, pyTruthy]

/-- C2.  For an empty datapoint list (a successful metrics call returning
zero buckets), `get_ec2_cpu_utilization` returns the success-shaped summary
and its `average_cpu_utilization_24h` is exactly 0.0; absence of data is not
an error. -/
theorem spec_c2_empty_datapoints_zero (env : Env) (instance_id resp itype : JValue)
    (hdesc : env.describe_instances instance_id = Except.ok resp)
    (hnav : navigateInstanceType resp = Except.ok itype)
    (hmet : env.get_metric_statistics instance_id = Except.ok (mkMetricsResponse [])) :
    (get_ec2_cpu_utilization env instance_id).1 = successSummary instance_id itype 0
      ∧ pyLookup "average_cpu_utilization_24h" (get_ec2_cpu_utilization env instance_id).1
          = some (.num 0) := by
  have hbase : (get_ec2_cpu_utilization env instance_id).1 = successSummary instance_id itype 0 := by
    simp [get_ec2_cpu_utilization, hdesc, hnav, hmet, computeCpuAverage_empty]
  refine ⟨hbase, ?_⟩
  rw [hbase]
  simp [successSummary, pyLookup, round2_zero]

/-- C2 witness: a concrete environment returning zero datapoints. -/
theorem spec_c2_witness :
    (let env : Env :=
      { describe_instances := fun _ => Except.ok (.obj [("Reservations",
          .arr [.obj [("Instances", .arr [.obj [("InstanceType", .str "t3.micro")]])]])])
        get_metric_statistics := fun _ => Except.ok (mkMetricsResponse []) };
    (get_ec2_cpu_utilization env (.str "i-123")).1 = successSummary (.str "i-123") (.str "t3.micro") 0
      ∧ pyLookup "average_cpu_utilization_24h" (get_ec2_cpu_utilization env (.str "i-123")).1
          = some (.num 0)) :=
  spec_c2_empty_datapoints_zero _ (.str "i-123") _ (.str "t3.micro") rfl rfl rfl

theorem get_ec2_shape (env : Env) (iid : JValue) :
    (∃ e, (get_ec2_cpu_utilization env iid).1 = failureSummary iid e) ∨
    (∃ it q, (get_ec2_cpu_utilization env iid).1 = successSummary iid it q) := by
  rcases h1 : env.describe_instances iid with e | resp
  · exact .inl ⟨e, by simp [get_ec2_cpu_utilization, h1]⟩
  · rcases h2 : navigateInstanceType resp with e | itype
    · exact .inl ⟨e, by simp [get_ec2_cpu_utilization, h1, h2]⟩
    · rcases h3 : env.get_metric_statistics iid with e | cw
      · exact .inl ⟨e, by simp [get_ec2_cpu_utilization, h1, h2, h3]⟩
      · rcases h4 : computeCpuAverage cw with e | avg
        · exact .inl ⟨e, by simp [get_ec2_cpu_utilization, h1, h2, h3, h4]⟩
        · exact .inr ⟨itype, avg, by simp [get_ec2_cpu_utilization, h1, h2, h3, h4]⟩

/-- C3.  For every environment and instance id the resolver produces exactly
one of the two result shapes: the success shape with exactly the fields
instance_id, instance_type, average_cpu_utilization_24h, message and no error
field, or the failure shape with exactly instance_id, error, message and no
instance_type or average field — never both, never neither. -/
theorem spec_c3_exactly_one_shape (env : Env) (instance_id : JValue) :
    Xor' (successShaped (get_ec2_cpu_utilization env instance_id).1)
      (failureShaped (get_ec2_cpu_utilization env instance_id).1) := by
  have hs : ∀ it q, successShaped (successSummary instance_id it q) ∧
      ¬ failureShaped (successSummary instance_id it q) := by
    intro it q
    constructor
    · constructor <;> simp [successSummary, pyLookup]
    · intro h
      have := h.1
      simp [successSummary] at this
  have hf : ∀ e, failureShaped (failureSummary instance_id e) ∧
      ¬ successShaped (failureSummary instance_id e) := by
    intro e
    constructor
    · refine ⟨?_, ?_, ?_⟩ <;> simp [failureSummary, pyLookup]
    · intro h
      have := h.1
      simp [failureSummary] at this
  rcases get_ec2_shape env instance_id with ⟨e, hrw⟩ | ⟨it, q, hrw⟩
  · rw [hrw]
    exact Or.inr (hf e)
  · rw [hrw]
    exact Or.inl (hs it q)

/-- C4.  When either collaborator call fails — the inventory describe, or the
metrics query reached after a successful describe — the resolver returns the
failure-shaped summary built from the original instance id and the cause
string: by definition of `failureSummary` it carries that id, the cause as
the error field, and the fixed advisory message.  The resolver is a total
function into summaries (its type has no fault channel), so no collaborator
failure propagates as a transport fault. -/
theorem spec_c4_collaborator_failure_uniform (env : Env) (instance_id : JValue) (e : String)
    (h : env.describe_instances instance_id = Except.error e ∨
      (∃ resp itype, env.describe_instances instance_id = Except.ok resp ∧
        navigateInstanceType resp = Except.ok itype ∧
        env.get_metric_statistics instance_id = Except.error e)) :
    (get_ec2_cpu_utilization env instance_id).1 = failureSummary instance_id e := by
  rcases h with hdesc | ⟨resp, itype, hdesc, hnav, hmet⟩
  · simp [get_ec2_cpu_utilization, hdesc]
  · simp [get_ec2_cpu_utilization, hdesc, hnav, hmet]

/-- C4 witness: a failing describe call. -/
theorem spec_c4_witness :
    (let env : Env :=
      { describe_instances := fun _ => Except.error "An error occurred"
        get_metric_statistics := fun _ => Except.error "unreachable" };
    (get_ec2_cpu_utilization env (.str "i-999")).1 = failureSummary (.str "i-999") "An error occurred") :=
  spec_c4_collaborator_failure_uniform _ (.str "i-999") _ (Or.inl rfl)

/-- C7.  The descriptor fetch: (one) every resolver run makes exactly one
inventory (describe) call; (two) the instance type is taken solely from the
"InstanceType" field of the first record of the first reservation — the other
records `rs`, `is2` and every other field are arbitrary and unread; (three) a
response with zero reservation records makes the whole fetch fail into the
failure-shaped summary (the IndexError navigating the empty list, caught and
unified with every other fetch failure). -/
theorem spec_c7_descriptor_fetch (env : Env) (iid resp r0 j t : JValue) (rs is2 : List JValue)
    (hres : pyGetKey resp "Reservations" = Except.ok (.arr (r0 :: rs)))
    (hinst : pyGetKey r0 "Instances" = Except.ok (.arr (j :: is2)))
    (htype : pyGetKey j "InstanceType" = Except.ok t) :
    (get_ec2_cpu_utilization env iid).2.countP (fun c => isDescribeCall c) = 1
      ∧ navigateInstanceType resp = Except.ok t
      ∧ (∀ resp0, pyGetKey resp0 "Reservations" = Except.ok (.arr []) →
          env.describe_instances iid = Except.ok resp0 →
          (get_ec2_cpu_utilization env iid).1 = failureSummary iid "list index out of range") := by
  refine ⟨?_, ?_, ?_⟩
  · rcases h1 : env.describe_instances iid with e | resp1
    · simp [get_ec2_cpu_utilization, h1, isDescribeCall]
    · rcases h2 : navigateInstanceType resp1 with e | itype
      · simp [get_ec2_cpu_utilization, h1, h2, isDescribeCall]
      · rcases h3 : env.get_metric_statistics iid with e | cw
        · simp [get_ec2_cpu_utilization, h1, h2, h3, isDescribeCall]
        · rcases h4 : computeCpuAverage cw with e | avg
          · simp [get_ec2_cpu_utilization, h1, h2, h3, h4, isDescribeCall]
          · simp [get_ec2_cpu_utilization, h1, h2, h3, h4, isDescribeCall]
  · simp [navigateInstanceType, hres, hinst, htype, pyIndex0]
  · intro resp0 hres0 hdesc
    have hnav : navigateInstanceType resp0 = Except.error "list index out of range" := by
      simp [navigateInstanceType, hres0, pyIndex0]
    simp [get_ec2_cpu_utilization, hdesc, hnav]

/-- C7 witness at a two-reservation response whose extra records are unread. -/
theorem spec_c7_witness :
    (let env : Env :=
      { describe_instances := fun _ => Except.ok (.obj [("Reservations", .arr [])])
        get_metric_statistics := fun _ => Except.error "unreachable" };
    (get_ec2_cpu_utilization env (.str "i-123")).2.countP (fun c => isDescribeCall c) = 1
      ∧ navigateInstanceType (.obj [("Reservations",
          .arr [.obj [("Instances", .arr [.obj [("InstanceType", .str "t3.micro")], .obj []])],
                .obj []])]) = Except.ok (.str "t3.micro")
      ∧ (∀ resp0, pyGetKey resp0 "Reservations" = Except.ok (.arr []) →
          env.describe_instances (.str "i-123") = Except.ok resp0 →
          (get_ec2_cpu_utilization env (.str "i-123")).1
            = failureSummary (.str "i-123") "list index out of range")) :=
  spec_c7_descriptor_fetch _ (.str "i-123") _ _ _ (.str "t3.micro") [.obj []] [.obj []]
    rfl rfl rfl

theorem handler_dispatch (env : Env) (ag m : JValue) (body : String)
    (pm : List (String × JValue)) (hbody : loads body = some (.obj pm)) :
    lambda_handler env (mkEvent ag (.str "/get_ec2_cpu_utilization") m (.str body)) =
      Except.ok (mkResponseEnvelope ag (.str "/get_ec2_cpu_utilization") m
        (dumps (.obj (get_ec2_cpu_utilization env ((pyLookup "instance_id" pm).getD .null)).1))) := by
  simp [lambda_handler, mkEvent, getKey, pyLookup, hbody, mkResponseEnvelope]

theorem handler_unsupported (env : Env) (ag ap m bodyv : JValue)
    (h : ∀ p, ap = JValue.str p → p ≠ "/get_ec2_cpu_utilization") :
    lambda_handler env (mkEvent ag ap m bodyv) = Except.error (.unsupportedApiPath ap) := by
  cases ap with
  | str p =>
    have hp := h p rfl
    simp [lambda_handler, mkEvent, getKey, pyLookup, hp]
  | null => simp [lambda_handler, mkEvent, getKey, pyLookup]
  | bool b => simp [lambda_handler, mkEvent, getKey, pyLookup]
  | num q => simp [lambda_handler, mkEvent, getKey, pyLookup]
  | arr es => simp [lambda_handler, mkEvent, getKey, pyLookup]
  | obj ms => simp [lambda_handler, mkEvent, getKey, pyLookup]

/-- C5.  Routing: with a well-formed envelope, the handler dispatches to the
resolver exactly when apiPath is the string "/get_ec2_cpu_utilization" (and
then returns the wrapped summary); for any other apiPath value it raises the
terminal unsupported-path fault naming that path, and never converts the
mismatch into a body-level error. -/
theorem spec_c5_routing (env : Env) (ag api_path m : JValue) (body : String)
    (pm : List (String × JValue)) (hbody : loads body = some (.obj pm)) :
    (api_path ≠ JValue.str "/get_ec2_cpu_utilization" →
      lambda_handler env (mkEvent ag api_path m (.str body)) =
        Except.error (.unsupportedApiPath api_path)) ∧
    (api_path = JValue.str "/get_ec2_cpu_utilization" →
      lambda_handler env (mkEvent ag api_path m (.str body)) =
        Except.ok (mkResponseEnvelope ag api_path m
          (dumps (.obj (get_ec2_cpu_utilization env ((pyLookup "instance_id" pm).getD .null)).1)))) := by
  constructor
  · intro hne
    refine handler_unsupported env ag api_path m (.str body) ?_
    intro p hp hcontra
    exact hne (hp.trans (by rw [hcontra]))
  · intro heq
    subst heq
    exact handler_dispatch env ag m body pm hbody

/-- C5 witness: the supported path dispatches, the path "/other" faults. -/
theorem spec_c5_witness :
    (let env : Env :=
      { describe_instances := fun _ => Except.error "boom"
        get_metric_statistics := fun _ => Except.error "boom" };
    ((JValue.str "/other" ≠ JValue.str "/get_ec2_cpu_utilization" →
      lambda_handler env (mkEvent (.str "g") (.str "/other") (.str "GET") (.str "{}")) =
        Except.error (.unsupportedApiPath (.str "/other"))) ∧
     (JValue.str "/other" = JValue.str "/get_ec2_cpu_utilization" →
      lambda_handler env (mkEvent (.str "g") (.str "/other") (.str "GET") (.str "{}")) =
        Except.ok (mkResponseEnvelope (.str "g") (.str "/other") (.str "GET")
          (dumps (.obj (get_ec2_cpu_utilization env ((pyLookup "instance_id" []).getD .null)).1)))))) :=
  spec_c5_routing _ (.str "g") (.str "/other") (.str "GET") "{}" [] rfl

/-- C6.  For every dispatched request the outbound envelope echoes the
inbound actionGroup, apiPath and httpMethod unmodified, carries
httpStatusCode 200 and embeds the summary as a JSON string in the body
(`mkResponseEnvelope` is exactly that shape); `env` is arbitrary, so this
holds whether the embedded summary has the success or the failure shape. -/
theorem spec_c6_envelope_echo (env : Env) (ag m : JValue) (body : String)
    (pm : List (String × JValue)) (hbody : loads body = some (.obj pm)) :
    lambda_handler env (mkEvent ag (.str "/get_ec2_cpu_utilization") m (.str body)) =
      Except.ok (mkResponseEnvelope ag (.str "/get_ec2_cpu_utilization") m
        (dumps (.obj (get_ec2_cpu_utilization env ((pyLookup "instance_id" pm).getD .null)).1))) :=
  handler_dispatch env ag m body pm hbody

/-- C6 witness: a failing environment, so the echoed envelope wraps a
failure-shaped summary with status 200. -/
theorem spec_c6_witness :
    (let env : Env :=
      { describe_instances := fun _ => Except.error "boom"
        get_metric_statistics := fun _ => Except.error "boom" };
    lambda_handler env (mkEvent (.str "grp") (.str "/get_ec2_cpu_utilization") (.str "POST")
        (.str "\x7b\"instance_id\": \"i-1\"\x7d")) =
      Except.ok (mkResponseEnvelope (.str "grp") (.str "/get_ec2_cpu_utilization") (.str "POST")
        (dumps (.obj (get_ec2_cpu_utilization
          ({ describe_instances := fun _ => Except.error "boom"
             get_metric_statistics := fun _ => Except.error "boom" } : Env)
          ((pyLookup "instance_id" [("instance_id", .str "i-1")]).getD .null)).1)))) :=
  spec_c6_envelope_echo _ (.str "grp") (.str "POST") "\x7b\"instance_id\": \"i-1\"\x7d"
    [("instance_id", .str "i-1")] rfl

/-- C9.  The handler does not validate `instance_id` at the parse boundary:
a decoded body with no "instance_id" key still dispatches, the resolver is
called with None (`.null`), and when the inventory collaborator rejects that
argument the caller receives the ordinary 200 envelope wrapping the
failure-shaped summary with a null instance_id — not a parse fault. -/
theorem spec_c9_missing_instance_id (env : Env) (ag m : JValue) (body : String)
    (pm : List (String × JValue)) (e : String)
    (hbody : loads body = some (.obj pm))
    (hmissing : pyLookup "instance_id" pm = none)
    (hdesc : env.describe_instances .null = Except.error e) :
    lambda_handler env (mkEvent ag (.str "/get_ec2_cpu_utilization") m (.str body)) =
      Except.ok (mkResponseEnvelope ag (.str "/get_ec2_cpu_utilization") m
        (dumps (.obj (failureSummary .null e)))) := by
  rw [handler_dispatch env ag m body pm hbody, hmissing]
  simp [get_ec2_cpu_utilization, hdesc]

/-- C9 witness: the empty request body and a collaborator that rejects None. -/
theorem spec_c9_witness :
    (let env : Env :=
      { describe_instances := fun _ => Except.error "Parameter validation failed"
        get_metric_statistics := fun _ => Except.error "unreachable" };
    lambda_handler env (mkEvent (.str "g") (.str "/get_ec2_cpu_utilization") (.str "POST") (.str "{}")) =
      Except.ok (mkResponseEnvelope (.str "g") (.str "/get_ec2_cpu_utilization") (.str "POST")
        (dumps (.obj (failureSummary .null "Parameter validation failed"))))) :=
  spec_c9_missing_instance_id _ (.str "g") (.str "POST") "{}" [] "Parameter validation failed"
    rfl rfl rfl

theorem handler_ok_inversion (env : Env) (event out : JValue)
    (hr : lambda_handler env event = Except.ok out) :
    (∃ a, getKey event "actionGroup" = Except.ok a) ∧
    (getKey event "apiPath" = Except.ok (.str "/get_ec2_cpu_utilization")) ∧
    (∃ hm, getKey event "httpMethod" = Except.ok hm) ∧
    (∃ s pm, bodyFetch event = Except.ok (.str s) ∧ loads s = some (.obj pm)) := by
  rcases ha : getKey event "actionGroup" with f | action
  · simp [lambda_handler, ha] at hr
  rcases hp : getKey event "apiPath" with f | api_path
  · simp [lambda_handler, ha, hp] at hr
  cases api_path with
  | str p =>
    by_cases hpath : p = "/get_ec2_cpu_utilization"
    · subst hpath
      rcases h1 : getKey event "requestBody" with f | request_body
      · simp [lambda_handler, ha, hp, h1] at hr
      rcases h2 : getKey request_body "content" with f | content
      · simp [lambda_handler, ha, hp, h1, h2] at hr
      rcases h3 : getKey content "application/json" with f | content_json
      · simp [lambda_handler, ha, hp, h1, h2, h3] at hr
      rcases h4 : getKey content_json "body" with f | body
      · simp [lambda_handler, ha, hp, h1, h2, h3, h4] at hr
      cases body with
      | str body_str =>
        rcases h5 : loads body_str with _ | parameters
        · simp [lambda_handler, ha, hp, h1, h2, h3, h4, h5] at hr
        cases parameters with
        | obj pm =>
          rcases h6 : getKey event "httpMethod" with f | hm
          · simp [lambda_handler, ha, hp, h1, h2, h3, h4, h5, h6] at hr
          exact ⟨⟨action, rfl⟩, rfl, ⟨hm, rfl⟩,
            ⟨body_str, pm, by simp [bodyFetch, h1, h2, h3, h4], h5⟩⟩
        | null => simp [lambda_handler, ha, hp, h1, h2, h3, h4, h5] at hr
        | bool b => simp [lambda_handler, ha, hp, h1, h2, h3, h4, h5] at hr
        | num q => simp [lambda_handler, ha, hp, h1, h2, h3, h4, h5] at hr
        | str s2 => simp [lambda_handler, ha, hp, h1, h2, h3, h4, h5] at hr
        | arr es => simp [lambda_handler, ha, hp, h1, h2, h3, h4, h5] at hr
      | null => simp [lambda_handler, ha, hp, h1, h2, h3, h4] at hr
      | bool b => simp [lambda_handler, ha, hp, h1, h2, h3, h4] at hr
      | num q => simp [lambda_handler, ha, hp, h1, h2, h3, h4] at hr
      | arr es => simp [lambda_handler, ha, hp, h1, h2, h3, h4] at hr
      | obj ms => simp [lambda_handler, ha, hp, h1, h2, h3, h4] at hr
    · simp [lambda_handler, ha, hp, hpath] at hr
  | null => simp [lambda_handler, ha, hp] at hr
  | bool b => simp [lambda_handler, ha, hp] at hr
  | num q => simp [lambda_handler, ha, hp] at hr
  | arr es => simp [lambda_handler, ha, hp] at hr
  | obj ms => simp [lambda_handler, ha, hp] at hr

/-- C10.  An envelope missing any of the keys the handler reads
(actionGroup, apiPath, httpMethod, or any link of the nested
requestBody.content."application/json".body chain), or whose body string is
not valid JSON, makes `lambda_handler` end in an uncaught fault — it never
returns an outbound envelope for such input.  (The only envelope condition
tested explicitly by the code is the apiPath value; everything else
surfaces as the raised KeyError, TypeError or decode error.) -/
theorem spec_c10_malformed_envelope_faults (env : Env) (event : JValue)
    (h : (∃ f, getKey event "actionGroup" = Except.error f) ∨
         (∃ f, getKey event "apiPath" = Except.error f) ∨
         (∃ f, getKey event "httpMethod" = Except.error f) ∨
         (∃ f, bodyFetch event = Except.error f) ∨
         (∃ s, bodyFetch event = Except.ok (.str s) ∧ loads s = none)) :
    ∃ f, lambda_handler env event = Except.error f := by
  rcases hr : lambda_handler env event with f | out
  · exact ⟨f, rfl⟩
  exfalso
  obtain ⟨⟨a, ha⟩, hp, ⟨hm, hhm⟩, ⟨s, pm, hbf, hld⟩⟩ := handler_ok_inversion env event out hr
  rcases h with ⟨f, hf⟩ | ⟨f, hf⟩ | ⟨f, hf⟩ | ⟨f, hf⟩ | ⟨s2, hf, hl2⟩
  · rw [ha] at hf; exact Except.noConfusion hf
  · rw [hp] at hf; exact Except.noConfusion hf
  · rw [hhm] at hf; exact Except.noConfusion hf
  · rw [hbf] at hf; exact Except.noConfusion hf
  · rw [hbf] at hf
    have hs : s2 = s := by
      have := Except.ok.inj hf
      exact (JValue.str.inj this.symm)
    rw [hs, hld] at hl2
    exact Option.noConfusion hl2

/-- C10 witness: the empty-dict envelope has no actionGroup key, and the
handler faults on it. -/
theorem spec_c10_witness :
    ((∃ f, getKey (.obj []) "actionGroup" = Except.error f) ∧
     (∃ f, lambda_handler
        ({ describe_instances := fun _ => Except.error "x"
           get_metric_statistics := fun _ => Except.error "x" } : Env) (.obj []) =
          Except.error f)) :=
  ⟨⟨.keyError "actionGroup", rfl⟩,
    spec_c10_malformed_envelope_faults _ (.obj []) (Or.inl ⟨.keyError "actionGroup", rfl⟩)⟩

theorem toNat_ofNat_of_valid {n : ℕ} (h : n.isValidChar) : (Char.ofNat n).toNat = n := by
  rw [Char.ofNat, dif_pos h]
  simp [Char.ofNatAux, Char.toNat, UInt32.toNat, BitVec.toNat_ofNatLt]

theorem char_toNat_valid (c : Char) : c.toNat < 0xD800 ∨ (0xE000 ≤ c.toNat ∧ c.toNat < 0x110000) :=
  c.valid

theorem char_eq_of_toNat {c : Char} {n : ℕ} (h : c.toNat = n) : Char.ofNat n = c := by
  rw [← h, Char.ofNat_toNat]

theorem skipWs_cons_of_ne {c : Char} (l : List Char)
    (h : ¬(c = ' ' ∨ c = '\t' ∨ c = '\n' ∨ c = '\r')) : skipWs (c :: l) = c :: l := by
  simp only [skipWs, if_neg h]

theorem skipWs_space (l : List Char) : skipWs (' ' :: l) = skipWs l := by
  simp [skipWs]

set_option maxHeartbeats 1000000 in
theorem parseValue_space (fuel : ℕ) (l : List Char) :
    parseValue fuel (' ' :: l) = parseValue fuel l := by
  cases fuel with
  | zero => rfl
  | succ f => simp only [parseValue, skipWs_space]

set_option maxHeartbeats 1000000 in
theorem parseMember1_space (fuel : ℕ) (l : List Char) :
    parseMember1 fuel (' ' :: l) = parseMember1 fuel l := by
  cases fuel with
  | zero => rfl
  | succ f => simp only [parseMember1, skipWs_space]

theorem isDigitChar_digitChar {n : ℕ} (h : n < 10) : isDigitChar (digitChar n) = true := by
  interval_cases n <;> decide

theorem toNat_digitChar {n : ℕ} (h : n < 10) : (digitChar n).toNat = 48 + n := by
  interval_cases n <;> decide

theorem parseDigits_cons_digit {c : Char} (h : isDigitChar c = true) (acc cnt : ℕ) (l : List Char) :
    parseDigits acc cnt (c :: l) = parseDigits (acc * 10 + (c.toNat - 48)) (cnt + 1) l := by
  simp [parseDigits, h]

theorem parseDigits_stop {l : List Char} (h : ∀ c l2, l = c :: l2 → isDigitChar c = false)
    (acc cnt : ℕ) : parseDigits acc cnt l = (acc, cnt, l) := by
  cases l with
  | nil => rfl
  | cons c l2 => simp [parseDigits, h c l2 rfl]

theorem parseDigits_zeros (j : ℕ) : ∀ acc cnt rest,
    parseDigits acc cnt (padZeros j ++ rest) = parseDigits (acc * 10 ^ j) (cnt + j) rest := by
  induction j with
  | zero => intro acc cnt rest; simp [padZeros]
  | succ j ih =>
    intro acc cnt rest
    have hz : padZeros (j + 1) = '0' :: padZeros j := by
      simp [padZeros, List.replicate_succ]
    rw [hz, List.cons_append, parseDigits_cons_digit (by decide), ih]
    have h1 : acc * 10 + ((48 : ℕ) - 48) = acc * 10 := by omega
    have h2 : (Char.toNat '0') - 48 = 0 := by decide
    rw [h2]
    congr 1
    · rw [pow_succ]; ring
    · omega

theorem parseDigits_renderNatAux {fuel : ℕ} : ∀ {n : ℕ}, n < 10 ^ fuel →
    ∀ acc cnt rest, parseDigits acc cnt (renderNatAux fuel n ++ rest) =
      parseDigits (acc * 10 ^ (renderNatAux fuel n).length + n)
        (cnt + (renderNatAux fuel n).length) rest := by
  induction fuel with
  | zero =>
    intro n hn acc cnt rest
    have : n = 0 := by omega
    subst this
    simp [renderNatAux]
  | succ fuel ih =>
    intro n hn acc cnt rest
    by_cases h10 : n < 10
    · rw [renderNatAux, if_pos h10]
      show parseDigits acc cnt (digitChar n :: rest) = _
      rw [parseDigits_cons_digit (isDigitChar_digitChar h10), toNat_digitChar h10]
      simp only [List.length_cons, List.length_nil, pow_one, Nat.zero_add]
      have ha : acc * 10 + (48 + n - 48) = acc * 10 + n := by omega
      rw [ha]
    · rw [renderNatAux, if_neg h10]
      have hq : n / 10 < 10 ^ fuel := by
        rw [Nat.div_lt_iff_lt_mul (by norm_num)]
        rw [pow_succ] at hn
        exact hn
      rw [List.append_assoc, List.singleton_append, ih hq,
        parseDigits_cons_digit (isDigitChar_digitChar (Nat.mod_lt n (by norm_num))),
        toNat_digitChar (Nat.mod_lt n (by norm_num))]
      have hlen : (renderNatAux fuel (n / 10) ++ [digitChar (n % 10)]).length
          = (renderNatAux fuel (n / 10)).length + 1 := by
        simp
      rw [hlen]
      have hacc : (acc * 10 ^ (renderNatAux fuel (n / 10)).length + n / 10) * 10
            + (48 + n % 10 - 48)
          = acc * 10 ^ ((renderNatAux fuel (n / 10)).length + 1) + n := by
        rw [pow_succ, ← mul_assoc]
        omega
      rw [hacc]
      have hcnt : cnt + (renderNatAux fuel (n / 10)).length + 1
          = cnt + ((renderNatAux fuel (n / 10)).length + 1) := by omega
      rw [hcnt]

theorem notWs_of_digit {c : Char} (h : isDigitChar c = true) :
    ¬(c = ' ' ∨ c = '\t' ∨ c = '\n' ∨ c = '\r') := by
  intro hc
  rcases hc with hc | hc | hc | hc <;> (subst hc; exact absurd h (by decide))

set_option maxHeartbeats 1000000 in
theorem parseElement1_space (f : ℕ) (l : List Char) :
    parseElement1 f (' ' :: l) = parseElement1 f l := by
  cases f with
  | zero => rfl
  | succ f => simp only [parseElement1, parseValue_space]

theorem parseValue_null (f : ℕ) (r : List Char) :
    parseValue (f + 1) ('n' :: 'u' :: 'l' :: 'l' :: r) = some (.null, r) := rfl

theorem parseValue_true (f : ℕ) (r : List Char) :
    parseValue (f + 1) ('t' :: 'r' :: 'u' :: 'e' :: r) = some (.bool true, r) := rfl

theorem parseValue_false (f : ℕ) (r : List Char) :
    parseValue (f + 1) ('f' :: 'a' :: 'l' :: 's' :: 'e' :: r) = some (.bool false, r) := rfl

theorem parseValue_str (f : ℕ) (l r cs : List Char)
    (h : parseJString l = some (cs, r)) :
    parseValue (f + 1) ('"' :: l) = some (.str (String.mk cs), r) := by
  have h1 : parseValue (f + 1) ('"' :: l) =
      (match parseJString l with
       | some (cs2, r2) => some (JValue.str (String.mk cs2), r2)
       | none => none) := rfl
  rw [h1, h]

theorem parseValue_obj_empty (f : ℕ) (r : List Char) :
    parseValue (f + 1) ('{' :: '}' :: r) = some (.obj [], r) := rfl

theorem parseValue_obj_step (f : ℕ) (l2 r : List Char) (ms : List (String × JValue))
    (h : parseMember1 f ('"' :: l2) = some (ms, r)) :
    parseValue (f + 1) ('{' :: '"' :: l2) = some (.obj (dedupMembers ms), r) := by
  have h1 : parseValue (f + 1) ('{' :: '"' :: l2) =
      (match parseMember1 f ('"' :: l2) with
       | some (ms2, r2) => some (JValue.obj (dedupMembers ms2), r2)
       | none => none) := rfl
  rw [h1, h]

theorem parseValue_arr_empty (f : ℕ) (r : List Char) :
    parseValue (f + 1) ('[' :: ']' :: r) = some (.arr [], r) := rfl

theorem parseValue_arr_step (f : ℕ) (c : Char) (l2 r : List Char) (es : List JValue)
    (hcw : ¬(c = ' ' ∨ c = '\t' ∨ c = '\n' ∨ c = '\x0d')) (hcb : c ≠ ']')
    (h : parseElement1 f (c :: l2) = some (es, r)) :
    parseValue (f + 1) ('[' :: c :: l2) = some (.arr es, r) := by
  have h1 : parseValue (f + 1) ('[' :: c :: l2) =
      (match skipWs (c :: l2) with
       | ']' :: r2 => some (JValue.arr [], r2)
       | rest2 =>
         match parseElement1 f rest2 with
         | some (es2, r2) => some (JValue.arr es2, r2)
         | none => none) := rfl
  rw [h1, skipWs_cons_of_ne _ hcw]
  split
  · next r2 heq =>
    exact absurd (List.head_eq_of_cons_eq heq.symm).symm hcb
  · rw [h]

theorem parseElement1_last (f : ℕ) (l : List Char) (v : JValue) (r2 : List Char)
    (hv : parseValue f l = some (v, ']' :: r2)) :
    parseElement1 (f + 1) l = some ([v], r2) := by
  show (match parseValue f l with
    | some (v2, r1) =>
      (match skipWs r1 with
       | ',' :: r2a =>
         (match parseElement1 f r2a with
          | some (es, r3) => some (v2 :: es, r3)
          | none => none)
       | ']' :: r2a => some ([v2], r2a)
       | _ => none)
    | none => none) = some ([v], r2)
  rw [hv]
  rfl

theorem parseElement1_more (f : ℕ) (l : List Char) (v : JValue) (lnext : List Char)
    (es : List JValue) (r3 : List Char)
    (hv : parseValue f l = some (v, ',' :: ' ' :: lnext))
    (hrest : parseElement1 f lnext = some (es, r3)) :
    parseElement1 (f + 1) l = some (v :: es, r3) := by
  show (match parseValue f l with
    | some (v2, r1) =>
      (match skipWs r1 with
       | ',' :: r2a =>
         (match parseElement1 f r2a with
          | some (es2, r4) => some (v2 :: es2, r4)
          | none => none)
       | ']' :: r2a => some ([v2], r2a)
       | _ => none)
    | none => none) = some (v :: es, r3)
  rw [hv]
  show (match parseElement1 f (' ' :: lnext) with
    | some (es2, r4) => some (v :: es2, r4)
    | none => none) = some (v :: es, r3)
  rw [parseElement1_space, hrest]

theorem parseMember1_last (f : ℕ) (lk kcs lv : List Char) (v : JValue) (r4 : List Char)
    (hk : parseJString lk = some (kcs, ':' :: ' ' :: lv))
    (hv : parseValue f lv = some (v, '}' :: r4)) :
    parseMember1 (f + 1) ('"' :: lk) = some ([(String.mk kcs, v)], r4) := by
  show (match parseJString lk with
    | some (kcs2, r1) =>
      (match skipWs r1 with
       | ':' :: r2 =>
         (match parseValue f r2 with
          | some (v2, r3) =>
            (match skipWs r3 with
             | ',' :: r4a =>
               (match parseMember1 f r4a with
                | some (ms, r5) => some ((String.mk kcs2, v2) :: ms, r5)
                | none => none)
             | '}' :: r4a => some ([(String.mk kcs2, v2)], r4a)
             | _ => none)
          | none => none)
       | _ => none)
    | none => none) = some ([(String.mk kcs, v)], r4)
  rw [hk]
  show (match parseValue f (' ' :: lv) with
    | some (v2, r3) =>
      (match skipWs r3 with
       | ',' :: r4a =>
         (match parseMember1 f r4a with
          | some (ms, r5) => some ((String.mk kcs, v2) :: ms, r5)
          | none => none)
       | '}' :: r4a => some ([(String.mk kcs, v2)], r4a)
       | _ => none)
    | none => none) = some ([(String.mk kcs, v)], r4)
  rw [parseValue_space, hv]
  rfl

theorem parseMember1_more (f : ℕ) (lk kcs lv : List Char) (v : JValue) (lnext : List Char)
    (ms : List (String × JValue)) (r5 : List Char)
    (hk : parseJString lk = some (kcs, ':' :: ' ' :: lv))
    (hv : parseValue f lv = some (v, ',' :: ' ' :: lnext))
    (hrest : parseMember1 f lnext = some (ms, r5)) :
    parseMember1 (f + 1) ('"' :: lk) = some ((String.mk kcs, v) :: ms, r5) := by
  show (match parseJString lk with
    | some (kcs2, r1) =>
      (match skipWs r1 with
       | ':' :: r2 =>
         (match parseValue f r2 with
          | some (v2, r3) =>
            (match skipWs r3 with
             | ',' :: r4a =>
               (match parseMember1 f r4a with
                | some (ms2, r6) => some ((String.mk kcs2, v2) :: ms2, r6)
                | none => none)
             | '}' :: r4a => some ([(String.mk kcs2, v2)], r4a)
             | _ => none)
          | none => none)
       | _ => none)
    | none => none) = some ((String.mk kcs, v) :: ms, r5)
  rw [hk]
  show (match parseValue f (' ' :: lv) with
    | some (v2, r3) =>
      (match skipWs r3 with
       | ',' :: r4a =>
         (match parseMember1 f r4a with
          | some (ms2, r6) => some ((String.mk kcs, v2) :: ms2, r6)
          | none => none)
       | '}' :: r4a => some ([(String.mk kcs, v2)], r4a)
       | _ => none)
    | none => none) = some ((String.mk kcs, v) :: ms, r5)
  rw [parseValue_space, hv]
  show (match parseMember1 f (' ' :: lnext) with
    | some (ms2, r6) => some ((String.mk kcs, v) :: ms2, r6)
    | none => none) = some ((String.mk kcs, v) :: ms, r5)
  rw [parseMember1_space, hrest]

theorem parseValue_num (f : ℕ) (c : Char) (l2 r : List Char) (q : ℚ)
    (hc : isDigitChar c = true ∨ c = '-')
    (h : parseNumber (c :: l2) = some (q, r)) :
    parseValue (f + 1) (c :: l2) = some (.num q, r) := by
  have hws : skipWs (c :: l2) = c :: l2 := by
    refine skipWs_cons_of_ne _ ?_
    rcases hc with hc | hc
    · exact notWs_of_digit hc
    · subst hc; decide
  have h1 : parseValue (f + 1) (c :: l2) =
      (match skipWs (c :: l2) with
       | '{' :: rest =>
         (match skipWs rest with
          | '}' :: r2 => some (JValue.obj [], r2)
          | rest2 =>
            match parseMember1 f rest2 with
            | some (ms, r2) => some (JValue.obj (dedupMembers ms), r2)
            | none => none)
       | '[' :: rest =>
         (match skipWs rest with
          | ']' :: r2 => some (JValue.arr [], r2)
          | rest2 =>
            match parseElement1 f rest2 with
            | some (es, r2) => some (JValue.arr es, r2)
            | none => none)
       | '"' :: rest =>
         (match parseJString rest with
          | some (cs, r2) => some (JValue.str (String.mk cs), r2)
          | none => none)
       | 'n' :: 'u' :: 'l' :: 'l' :: rest => some (JValue.null, rest)
       | 't' :: 'r' :: 'u' :: 'e' :: rest => some (JValue.bool true, rest)
       | 'f' :: 'a' :: 'l' :: 's' :: 'e' :: rest => some (JValue.bool false, rest)
       | l3 =>
         match parseNumber l3 with
         | some (q2, r2) => some (JValue.num q2, r2)
         | none => none) := rfl
  rw [h1, hws]
  split
  · next rest heq =>
    have := List.head_eq_of_cons_eq heq
    subst this
    exact absurd hc (by decide)
  · next rest heq =>
    have := List.head_eq_of_cons_eq heq
    subst this
    exact absurd hc (by decide)
  · next rest heq =>
    have := List.head_eq_of_cons_eq heq
    subst this
    exact absurd hc (by decide)
  · next rest heq =>
    have := List.head_eq_of_cons_eq heq
    subst this
    exact absurd hc (by decide)
  · next rest heq =>
    have := List.head_eq_of_cons_eq heq
    subst this
    exact absurd hc (by decide)
  · next rest heq =>
    have := List.head_eq_of_cons_eq heq
    subst this
    exact absurd hc (by decide)
  · rw [h]

theorem renderNat_zero : renderNat 0 = ['0'] := rfl

theorem nat_lt_pow_fuel (n : ℕ) : n < 10 ^ (n + 1) :=
  lt_of_lt_of_le (Nat.lt_pow_self (by norm_num) n)
    (Nat.pow_le_pow_right (by norm_num) (Nat.le_succ n))

theorem renderNat_parse (n : ℕ) (acc cnt : ℕ) (rest : List Char) :
    parseDigits acc cnt (renderNat n ++ rest) =
      parseDigits (acc * 10 ^ (renderNat n).length + n) (cnt + (renderNat n).length) rest :=
  parseDigits_renderNatAux (nat_lt_pow_fuel n) acc cnt rest

theorem renderNatAux_head : ∀ {fuel n : ℕ}, 0 < fuel → n < 10 ^ fuel →
    ∃ c cs, renderNatAux fuel n = c :: cs ∧ isDigitChar c = true ∧ (c = '0' → n = 0) := by
  intro fuel
  induction fuel with
  | zero => intro n hf; omega
  | succ f ih =>
    intro n _ hn
    by_cases h10 : n < 10
    · refine ⟨digitChar n, [], ?_, isDigitChar_digitChar h10, ?_⟩
      · rw [renderNatAux, if_pos h10]
      · intro hc
        have := congrArg Char.toNat hc
        rw [toNat_digitChar h10] at this
        have h0 : (Char.toNat '0') = 48 := by decide
        omega
    · have hf2 : 0 < f := by
        rcases Nat.eq_zero_or_pos f with h | h
        · subst h; simp at hn; omega
        · exact h
      have hq : n / 10 < 10 ^ f := by
        rw [Nat.div_lt_iff_lt_mul (by norm_num)]
        rw [pow_succ] at hn
        exact hn
      obtain ⟨c, cs, hr, hd, hz⟩ := ih hf2 hq
      refine ⟨c, cs ++ [digitChar (n % 10)], ?_, hd, ?_⟩
      · rw [renderNatAux, if_neg h10, hr, List.cons_append]
      · intro hc
        have := hz hc
        omega

theorem renderNat_head (n : ℕ) :
    ∃ c cs, renderNat n = c :: cs ∧ isDigitChar c = true ∧ (c = '0' → n = 0) :=
  renderNatAux_head (Nat.succ_pos n) (nat_lt_pow_fuel n)

theorem renderNatAux_length_le : ∀ {fuel n j : ℕ}, n < 10 ^ fuel → n < 10 ^ j → 1 ≤ j →
    (renderNatAux fuel n).length ≤ j := by
  intro fuel
  induction fuel with
  | zero => intro n j _ _ _; simp [renderNatAux]
  | succ f ih =>
    intro n j hn hj hj1
    by_cases h10 : n < 10
    · rw [renderNatAux, if_pos h10]
      simpa using hj1
    · have hq : n / 10 < 10 ^ f := by
        rw [Nat.div_lt_iff_lt_mul (by norm_num)]
        rw [pow_succ] at hn
        exact hn
      have hj2 : 2 ≤ j := by
        by_contra hcon
        have : j = 1 := by omega
        subst this
        simp at hj
        omega
      have hqj : n / 10 < 10 ^ (j - 1) := by
        rw [Nat.div_lt_iff_lt_mul (by norm_num), ← pow_succ]
        have : j - 1 + 1 = j := by omega
        rw [this]
        exact hj
      have := ih hq hqj (by omega)
      rw [renderNatAux, if_neg h10]
      simp only [List.length_append, List.length_cons, List.length_nil]
      omega

theorem renderNat_length_le {n k : ℕ} (h : n < 10 ^ k) (hk : 1 ≤ k) :
    (renderNat n).length ≤ k :=
  renderNatAux_length_le (nat_lt_pow_fuel n) h hk

theorem stopsNumber_not_digit {l : List Char} (h : stopsNumber l = true) :
    ∀ c l2, l = c :: l2 → isDigitChar c = false := by
  intro c l2 hl
  subst hl
  simp [stopsNumber] at h
  exact h.1.1

theorem parseExpPart_stop (base : ℚ) {l : List Char} (h : stopsNumber l = true) :
    parseExpPart base l = some (base, l) := by
  cases l with
  | nil => rfl
  | cons c l2 =>
    simp [stopsNumber] at h
    obtain ⟨⟨h1, h2⟩, h3⟩ := h
    show (if c = 'e' ∨ c = 'E' then parseExpTail base l2 else some (base, c :: l2))
      = some (base, c :: l2)
    rw [if_neg (by tauto)]

theorem parseNumber_not_neg {c : Char} (l2 : List Char) (h : c ≠ '-') :
    parseNumber (c :: l2) = parsePosNumber (c :: l2) := by
  show (if c = '-' then (parsePosNumber l2).map fun p => (-p.1, p.2)
        else parsePosNumber (c :: l2)) = parsePosNumber (c :: l2)
  rw [if_neg h]

theorem parseNumber_neg (l : List Char) :
    parseNumber ('-' :: l) = (parsePosNumber l).map fun p => (-p.1, p.2) := rfl

theorem parsePosNumber_render (ip : ℕ) (tail2 : List Char) :
    parsePosNumber (renderNat ip ++ '.' :: tail2) = parseFracExp ip ('.' :: tail2) := by
  by_cases hip : ip = 0
  · subst hip
    rw [renderNat_zero]
    rfl
  · obtain ⟨c, cs, hr, hd, hz⟩ := renderNat_head ip
    have hc0 : c ≠ '0' := fun h => hip (hz h)
    rw [hr, List.cons_append]
    show (if c = '0' then parseFracExp 0 (cs ++ '.' :: tail2)
          else if isDigitChar c then
            match parseDigits (c.toNat - 48) 1 (cs ++ '.' :: tail2) with
            | (ip2, _, rest1) => parseFracExp ip2 rest1
          else none) = parseFracExp ip ('.' :: tail2)
    rw [if_neg hc0, if_pos hd]
    have hstep : parseDigits (c.toNat - 48) 1 (cs ++ '.' :: tail2)
        = parseDigits 0 0 (renderNat ip ++ '.' :: tail2) := by
      rw [hr, List.cons_append, parseDigits_cons_digit hd]
      norm_num
    rw [hstep, renderNat_parse,
      parseDigits_stop (by intro c3 l3 h3; rw [List.cons.injEq] at h3; rw [← h3.1]; decide)]
    simp

theorem parseFracExp_render (ip fr p : ℕ) (rest : List Char) (hstop : stopsNumber rest = true) :
    parseFracExp ip ('.' :: (padZeros p ++ (renderNat fr ++ rest)))
      = some ((ip : ℚ) + (fr : ℚ) / (10 : ℚ) ^ (p + (renderNat fr).length), rest) := by
  have hstopd := stopsNumber_not_digit hstop
  cases p with
  | zero =>
    obtain ⟨c, cs, hr, hd, _⟩ := renderNat_head fr
    rw [padZeros, List.replicate, List.nil_append]
    conv_lhs => rw [hr, List.cons_append]
    show (if ('.' : Char) = '.' then
            (match c :: (cs ++ rest) with
             | c2 :: rest2 =>
               if isDigitChar c2 then
                 match parseDigits (c2.toNat - 48) 1 rest2 with
                 | (f2, cnt, rest1) => parseExpPart ((ip : ℚ) + (f2 : ℚ) / (10 : ℚ) ^ cnt) rest1
               else none
             | [] => none)
          else parseExpPart (ip : ℚ) ('.' :: (c :: (cs ++ rest))))
      = some ((ip : ℚ) + (fr : ℚ) / (10 : ℚ) ^ (0 + (renderNat fr).length), rest)
    rw [if_pos rfl]
    show (if isDigitChar c then
            match parseDigits (c.toNat - 48) 1 (cs ++ rest) with
            | (f2, cnt, rest1) => parseExpPart ((ip : ℚ) + (f2 : ℚ) / (10 : ℚ) ^ cnt) rest1
          else none)
      = some ((ip : ℚ) + (fr : ℚ) / (10 : ℚ) ^ (0 + (renderNat fr).length), rest)
    rw [if_pos hd]
    have hstep : parseDigits (c.toNat - 48) 1 (cs ++ rest)
        = parseDigits 0 0 (renderNat fr ++ rest) := by
      rw [hr, List.cons_append, parseDigits_cons_digit hd]
      norm_num
    rw [hstep, renderNat_parse, parseDigits_stop hstopd]
    show parseExpPart ((ip : ℚ) + ((0 * 10 ^ (renderNat fr).length + fr : ℕ) : ℚ)
        / (10 : ℚ) ^ (0 + (renderNat fr).length)) rest = _
    rw [parseExpPart_stop _ hstop]
    norm_num
  | succ p2 =>
    rw [padZeros, List.replicate, List.cons_append]
    show (if ('.' : Char) = '.' then
            (match '0' :: (List.replicate p2 '0' ++ (renderNat fr ++ rest)) with
             | c2 :: rest2 =>
               if isDigitChar c2 then
                 match parseDigits (c2.toNat - 48) 1 rest2 with
                 | (f2, cnt, rest1) => parseExpPart ((ip : ℚ) + (f2 : ℚ) / (10 : ℚ) ^ cnt) rest1
               else none
             | [] => none)
          else parseExpPart (ip : ℚ) ('.' :: ('0' :: (List.replicate p2 '0' ++ (renderNat fr ++ rest)))))
      = some ((ip : ℚ) + (fr : ℚ) / (10 : ℚ) ^ (p2 + 1 + (renderNat fr).length), rest)
    rw [if_pos rfl]
    show (if isDigitChar '0' then
            match parseDigits ((Char.toNat '0') - 48) 1 (List.replicate p2 '0' ++ (renderNat fr ++ rest)) with
            | (f2, cnt, rest1) => parseExpPart ((ip : ℚ) + (f2 : ℚ) / (10 : ℚ) ^ cnt) rest1
          else none) = _
    rw [if_pos (by decide)]
    have h0 : (Char.toNat '0') - 48 = 0 := by decide
    rw [h0]
    have hzeros : parseDigits 0 1 (List.replicate p2 '0' ++ (renderNat fr ++ rest))
        = parseDigits (0 * 10 ^ p2) (1 + p2) (renderNat fr ++ rest) := by
      have := parseDigits_zeros p2 0 1 (renderNat fr ++ rest)
      rw [padZeros] at this
      exact this
    rw [hzeros, renderNat_parse, parseDigits_stop hstopd]
    show parseExpPart ((ip : ℚ) +
        ((0 * 10 ^ p2 * 10 ^ (renderNat fr).length + fr : ℕ) : ℚ)
          / (10 : ℚ) ^ (1 + p2 + (renderNat fr).length)) rest = _
    rw [parseExpPart_stop _ hstop]
    have harith : 1 + p2 + (renderNat fr).length = p2 + 1 + (renderNat fr).length := by omega
    rw [harith]
    norm_num

theorem decExp_dvd {d : ℕ} (h : d ∣ 10 ^ d) : d ∣ 10 ^ decExp d := by
  unfold decExp
  cases hfind : (List.range (d + 1)).find? (fun k => decide (d ∣ 10 ^ k)) with
  | some k =>
    simp only [Option.getD_some]
    have hp := List.find?_some hfind
    simpa using hp
  | none =>
    exfalso
    have hmem : d ∈ List.range (d + 1) := List.mem_range.mpr (Nat.lt_succ_self d)
    have := List.find?_eq_none.mp hfind d hmem
    simp [h] at this

theorem digit_ne_neg {c : Char} (h : isDigitChar c = true) : c ≠ '-' := by
  intro hc
  subst hc
  exact absurd h (by decide)

theorem nat_div_mod_q (n B : ℕ) (hB : 0 < B) :
    ((n / B : ℕ) : ℚ) + ((n % B : ℕ) : ℚ) / (B : ℚ) = (n : ℚ) / (B : ℚ) := by
  have hdm : n / B * B + n % B = n := by rw [Nat.mul_comm]; exact Nat.div_add_mod n B
  have hB0 : (B : ℚ) ≠ 0 := by exact_mod_cast hB.ne'
  field_simp
  exact_mod_cast congrArg (fun x : ℕ => (x : ℚ)) hdm

theorem parsePosNumber_decimal (n k : ℕ) (rest : List Char)
    (hstop : stopsNumber rest = true) :
    parsePosNumber ((if k = 0 then renderNat n ++ ['.', '0']
        else renderNat (n / 10 ^ k) ++ '.' ::
          (padZeros (k - (renderNat (n % 10 ^ k)).length) ++ renderNat (n % 10 ^ k))) ++ rest)
      = some ((n : ℚ) / (10 : ℚ) ^ k, rest) := by
  by_cases hk : k = 0
  · subst hk
    rw [if_pos rfl, List.append_assoc]
    have hform : (['.', '0'] ++ rest) = '.' :: (padZeros 0 ++ (renderNat 0 ++ rest)) := rfl
    rw [hform, parsePosNumber_render, parseFracExp_render n 0 0 rest hstop]
    norm_num
  · rw [if_neg hk, List.append_assoc, List.cons_append, List.append_assoc,
      parsePosNumber_render,
      parseFracExp_render (n / 10 ^ k) (n % 10 ^ k) (k - (renderNat (n % 10 ^ k)).length) rest hstop]
    have hpow : (0 : ℕ) < 10 ^ k := pow_pos (by norm_num) k
    have hlen : (renderNat (n % 10 ^ k)).length ≤ k :=
      renderNat_length_le (Nat.mod_lt n hpow) (by omega)
    have hkk : (k - (renderNat (n % 10 ^ k)).length) + (renderNat (n % 10 ^ k)).length = k := by
      omega
    rw [hkk]
    have hcast : ((10 ^ k : ℕ) : ℚ) = (10 : ℚ) ^ k := by push_cast; ring
    have hsplit := nat_div_mod_q n (10 ^ k) hpow
    rw [hcast] at hsplit
    rw [hsplit]

theorem parseNumber_decimal (n k : ℕ) (rest : List Char)
    (hstop : stopsNumber rest = true) :
    parseNumber ((if k = 0 then renderNat n ++ ['.', '0']
        else renderNat (n / 10 ^ k) ++ '.' ::
          (padZeros (k - (renderNat (n % 10 ^ k)).length) ++ renderNat (n % 10 ^ k))) ++ rest)
      = some ((n : ℚ) / (10 : ℚ) ^ k, rest) := by
  have hpp := parsePosNumber_decimal n k rest hstop
  by_cases hk : k = 0
  · subst hk
    rw [if_pos rfl] at hpp ⊢
    obtain ⟨c0, cs0, hr0, hd0, _⟩ := renderNat_head n
    rw [List.append_assoc] at hpp ⊢
    conv_lhs => rw [hr0, List.cons_append]
    rw [parseNumber_not_neg _ (digit_ne_neg hd0)]
    conv_lhs => rw [← List.cons_append, ← hr0]
    exact hpp
  · rw [if_neg hk] at hpp ⊢
    obtain ⟨c0, cs0, hr0, hd0, _⟩ := renderNat_head (n / 10 ^ k)
    rw [List.append_assoc] at hpp ⊢
    conv_lhs => rw [hr0, List.cons_append]
    rw [parseNumber_not_neg _ (digit_ne_neg hd0)]
    conv_lhs => rw [← List.cons_append, ← hr0]
    exact hpp

theorem parseNumber_renderNum (q : ℚ) (hq : q.den ∣ 10 ^ q.den) (rest : List Char)
    (hstop : stopsNumber rest = true) :
    parseNumber (renderNum q ++ rest) = some (q, rest) := by
  have hdvd : q.den ∣ 10 ^ decExp q.den := decExp_dvd hq
  simp only [renderNum]
  set k := decExp q.den with hk
  set c : ℤ := ((10 ^ k : ℕ) : ℤ) / (q.den : ℤ) with hc
  set m : ℤ := q.num * c with hm
  have hdc : (q.den : ℤ) * c = ((10 ^ k : ℕ) : ℤ) :=
    Int.mul_ediv_cancel' (Int.natCast_dvd_natCast.mpr hdvd)
  have hqd : q * (q.den : ℚ) = (q.num : ℚ) := by
    have hden0 : (q.den : ℚ) ≠ 0 := Nat.cast_ne_zero.mpr q.den_nz
    calc q * (q.den : ℚ) = ((q.num : ℚ) / (q.den : ℚ)) * (q.den : ℚ) := by
          rw [Rat.num_div_den]
      _ = (q.num : ℚ) := div_mul_cancel₀ _ hden0
  have hmq : (m : ℚ) = q * (10 : ℚ) ^ k := by
    have h10 : ((10 : ℚ)) ^ k = ((10 ^ k : ℕ) : ℚ) := by push_cast; ring
    have hdcq : (q.den : ℚ) * (c : ℚ) = ((10 ^ k : ℕ) : ℚ) := by
      exact_mod_cast congrArg (fun z : ℤ => (z : ℚ)) hdc
    rw [hm]
    push_cast
    rw [← hqd, h10, ← hdcq]
    ring
  have hq_eq : (m : ℚ) / (10 : ℚ) ^ k = q := by
    rw [hmq]
    have h100 : ((10 : ℚ)) ^ k ≠ 0 := by positivity
    field_simp
  by_cases hneg : m < 0
  · rw [if_pos hneg, List.append_assoc, List.singleton_append, parseNumber_neg,
      parsePosNumber_decimal m.natAbs k rest hstop]
    have habs : ((m.natAbs : ℕ) : ℚ) = -(m : ℚ) := by
      rw [Int.cast_natAbs, Int.cast_abs]
      exact abs_of_neg (by exact_mod_cast hneg)
    simp only [Option.map]
    rw [habs, neg_div, neg_neg, hq_eq]
  · rw [if_neg hneg, List.append_assoc, List.nil_append,
      parseNumber_decimal m.natAbs k rest hstop]
    have habs : ((m.natAbs : ℕ) : ℚ) = (m : ℚ) := by
      rw [Int.cast_natAbs, Int.cast_abs]
      exact abs_of_nonneg (by exact_mod_cast le_of_not_lt hneg)
    rw [habs, hq_eq]

theorem hexVal_hexDigitChar {x : ℕ} (h : x < 16) : hexVal (hexDigitChar x) = some x := by
  interval_cases x <;> decide

theorem char_toNat_lt (c : Char) : c.toNat < 0x110000 := by
  rcases char_toNat_valid c with h | h
  · omega
  · omega

theorem pjs_quote (f : ℕ) (r : List Char) :
    parseJStringBody (f + 1) ('"' :: r) = some ([], r) := rfl

theorem pjs_esc_quote (f : ℕ) (r : List Char) :
    parseJStringBody (f + 1) ('\\' :: '"' :: r)
      = (parseJStringBody f r).map fun p => ('"' :: p.1, p.2) := rfl

theorem pjs_esc_backslash (f : ℕ) (r : List Char) :
    parseJStringBody (f + 1) ('\\' :: '\\' :: r)
      = (parseJStringBody f r).map fun p => ('\\' :: p.1, p.2) := rfl

theorem pjs_esc_b (f : ℕ) (r : List Char) :
    parseJStringBody (f + 1) ('\\' :: 'b' :: r)
      = (parseJStringBody f r).map fun p => (Char.ofNat 8 :: p.1, p.2) := rfl

theorem pjs_esc_f (f : ℕ) (r : List Char) :
    parseJStringBody (f + 1) ('\\' :: 'f' :: r)
      = (parseJStringBody f r).map fun p => (Char.ofNat 12 :: p.1, p.2) := rfl

theorem pjs_esc_n (f : ℕ) (r : List Char) :
    parseJStringBody (f + 1) ('\\' :: 'n' :: r)
      = (parseJStringBody f r).map fun p => ('\n' :: p.1, p.2) := rfl

theorem pjs_esc_r (f : ℕ) (r : List Char) :
    parseJStringBody (f + 1) ('\\' :: 'r' :: r)
      = (parseJStringBody f r).map fun p => ('\x0d' :: p.1, p.2) := rfl

theorem pjs_esc_t (f : ℕ) (r : List Char) :
    parseJStringBody (f + 1) ('\\' :: 't' :: r)
      = (parseJStringBody f r).map fun p => ('\t' :: p.1, p.2) := rfl

theorem pjs_plain (f : ℕ) (c : Char) (r : List Char)
    (hc1 : ¬c = '"') (hc2 : ¬c = '\\') (hge : ¬c.toNat < 0x20) :
    parseJStringBody (f + 1) (c :: r)
      = (parseJStringBody f r).map fun p => (c :: p.1, p.2) := by
  have heq : parseJStringBody (f + 1) (c :: r) =
      (if c = '"' then some ([], r)
       else if c = '\\' then
         (match r with
          | [] => none
          | e :: rest2 =>
            if e = '"' then (parseJStringBody f rest2).map fun p => ('"' :: p.1, p.2)
            else if e = '\\' then (parseJStringBody f rest2).map fun p => ('\\' :: p.1, p.2)
            else if e = '/' then (parseJStringBody f rest2).map fun p => ('/' :: p.1, p.2)
            else if e = 'b' then (parseJStringBody f rest2).map fun p => (Char.ofNat 8 :: p.1, p.2)
            else if e = 'f' then (parseJStringBody f rest2).map fun p => (Char.ofNat 12 :: p.1, p.2)
            else if e = 'n' then (parseJStringBody f rest2).map fun p => ('\n' :: p.1, p.2)
            else if e = 'r' then (parseJStringBody f rest2).map fun p => ('\x0d' :: p.1, p.2)
            else if e = 't' then (parseJStringBody f rest2).map fun p => ('\t' :: p.1, p.2)
            else if e = 'u' then
              match rest2 with
              | a :: b :: c2 :: d :: rest3 =>
                match hexVal a, hexVal b, hexVal c2, hexVal d with
                | some va, some vb, some vc, some vd =>
                  let n := va * 4096 + vb * 256 + vc * 16 + vd
                  if 0xD800 ≤ n ∧ n ≤ 0xDBFF then
                    match rest3 with
                    | e2 :: u2 :: a2 :: b2 :: c3 :: d2 :: rest5 =>
                      if e2 = '\\' ∧ u2 = 'u' then
                        match hexVal a2, hexVal b2, hexVal c3, hexVal d2 with
                        | some wa, some wb, some wc, some wd =>
                          let m := wa * 4096 + wb * 256 + wc * 16 + wd
                          if 0xDC00 ≤ m ∧ m ≤ 0xDFFF then
                            (parseJStringBody f rest5).map fun p =>
                              (Char.ofNat (0x10000 + (n - 0xD800) * 0x400 + (m - 0xDC00)) :: p.1, p.2)
                          else
                            (parseJStringBody f rest3).map fun p => (Char.ofNat n :: p.1, p.2)
                        | _, _, _, _ => (parseJStringBody f rest3).map fun p => (Char.ofNat n :: p.1, p.2)
                      else (parseJStringBody f rest3).map fun p => (Char.ofNat n :: p.1, p.2)
                    | _ => (parseJStringBody f rest3).map fun p => (Char.ofNat n :: p.1, p.2)
                  else
                    (parseJStringBody f rest3).map fun p => (Char.ofNat n :: p.1, p.2)
                | _, _, _, _ => none
              | _ => none
            else none)
       else if c.toNat < 0x20 then none
       else (parseJStringBody f r).map fun p => (c :: p.1, p.2)) := rfl
  rw [heq, if_neg hc1, if_neg hc2, if_neg hge]

theorem pjs_u_bmp (f : ℕ) (x1 x2 x3 x4 : ℕ)
    (h1 : x1 < 16) (h2 : x2 < 16) (h3 : x3 < 16) (h4 : x4 < 16) (rest3 : List Char)
    (hns : ¬(0xD800 ≤ x1 * 4096 + x2 * 256 + x3 * 16 + x4 ∧
             x1 * 4096 + x2 * 256 + x3 * 16 + x4 ≤ 0xDBFF)) :
    parseJStringBody (f + 1) ('\\' :: 'u' :: hexDigitChar x1 :: hexDigitChar x2 ::
        hexDigitChar x3 :: hexDigitChar x4 :: rest3)
      = (parseJStringBody f rest3).map fun p =>
          (Char.ofNat (x1 * 4096 + x2 * 256 + x3 * 16 + x4) :: p.1, p.2) := by
  show (match hexVal (hexDigitChar x1), hexVal (hexDigitChar x2),
        hexVal (hexDigitChar x3), hexVal (hexDigitChar x4) with
    | some va, some vb, some vc, some vd =>
      let n := va * 4096 + vb * 256 + vc * 16 + vd
      if 0xD800 ≤ n ∧ n ≤ 0xDBFF then
        match rest3 with
        | e2 :: u2 :: a2 :: b2 :: c3 :: d2 :: rest5 =>
          if e2 = '\\' ∧ u2 = 'u' then
            match hexVal a2, hexVal b2, hexVal c3, hexVal d2 with
            | some wa, some wb, some wc, some wd =>
              let m := wa * 4096 + wb * 256 + wc * 16 + wd
              if 0xDC00 ≤ m ∧ m ≤ 0xDFFF then
                (parseJStringBody f rest5).map fun p =>
                  (Char.ofNat (0x10000 + (n - 0xD800) * 0x400 + (m - 0xDC00)) :: p.1, p.2)
              else
                (parseJStringBody f rest3).map fun p => (Char.ofNat n :: p.1, p.2)
            | _, _, _, _ => (parseJStringBody f rest3).map fun p => (Char.ofNat n :: p.1, p.2)
          else (parseJStringBody f rest3).map fun p => (Char.ofNat n :: p.1, p.2)
        | _ => (parseJStringBody f rest3).map fun p => (Char.ofNat n :: p.1, p.2)
      else
        (parseJStringBody f rest3).map fun p => (Char.ofNat n :: p.1, p.2)
    | _, _, _, _ => none)
      = (parseJStringBody f rest3).map fun p =>
          (Char.ofNat (x1 * 4096 + x2 * 256 + x3 * 16 + x4) :: p.1, p.2)
  rw [hexVal_hexDigitChar h1, hexVal_hexDigitChar h2, hexVal_hexDigitChar h3,
    hexVal_hexDigitChar h4]
  show (if 0xD800 ≤ x1 * 4096 + x2 * 256 + x3 * 16 + x4 ∧
          x1 * 4096 + x2 * 256 + x3 * 16 + x4 ≤ 0xDBFF then
      match rest3 with
      | e2 :: u2 :: a2 :: b2 :: c3 :: d2 :: rest5 =>
        if e2 = '\\' ∧ u2 = 'u' then
          match hexVal a2, hexVal b2, hexVal c3, hexVal d2 with
          | some wa, some wb, some wc, some wd =>
            let m := wa * 4096 + wb * 256 + wc * 16 + wd
            if 0xDC00 ≤ m ∧ m ≤ 0xDFFF then
              (parseJStringBody f rest5).map fun p =>
                (Char.ofNat (0x10000 + (x1 * 4096 + x2 * 256 + x3 * 16 + x4 - 0xD800) * 0x400 +
                  (m - 0xDC00)) :: p.1, p.2)
            else
              (parseJStringBody f rest3).map fun p =>
                (Char.ofNat (x1 * 4096 + x2 * 256 + x3 * 16 + x4) :: p.1, p.2)
          | _, _, _, _ =>
            (parseJStringBody f rest3).map fun p =>
              (Char.ofNat (x1 * 4096 + x2 * 256 + x3 * 16 + x4) :: p.1, p.2)
        else
          (parseJStringBody f rest3).map fun p =>
            (Char.ofNat (x1 * 4096 + x2 * 256 + x3 * 16 + x4) :: p.1, p.2)
      | _ =>
        (parseJStringBody f rest3).map fun p =>
          (Char.ofNat (x1 * 4096 + x2 * 256 + x3 * 16 + x4) :: p.1, p.2)
    else
      (parseJStringBody f rest3).map fun p =>
        (Char.ofNat (x1 * 4096 + x2 * 256 + x3 * 16 + x4) :: p.1, p.2))
      = (parseJStringBody f rest3).map fun p =>
          (Char.ofNat (x1 * 4096 + x2 * 256 + x3 * 16 + x4) :: p.1, p.2)
  rw [if_neg hns]

theorem pjs_u_pair (f : ℕ) (x1 x2 x3 x4 x5 x6 x7 x8 : ℕ)
    (h1 : x1 < 16) (h2 : x2 < 16) (h3 : x3 < 16) (h4 : x4 < 16)
    (h5 : x5 < 16) (h6 : x6 < 16) (h7 : x7 < 16) (h8 : x8 < 16) (rest5 : List Char)
    (hhi : 0xD800 ≤ x1 * 4096 + x2 * 256 + x3 * 16 + x4 ∧
           x1 * 4096 + x2 * 256 + x3 * 16 + x4 ≤ 0xDBFF)
    (hlo : 0xDC00 ≤ x5 * 4096 + x6 * 256 + x7 * 16 + x8 ∧
           x5 * 4096 + x6 * 256 + x7 * 16 + x8 ≤ 0xDFFF) :
    parseJStringBody (f + 1) ('\\' :: 'u' :: hexDigitChar x1 :: hexDigitChar x2 ::
        hexDigitChar x3 :: hexDigitChar x4 :: '\\' :: 'u' :: hexDigitChar x5 ::
        hexDigitChar x6 :: hexDigitChar x7 :: hexDigitChar x8 :: rest5)
      = (parseJStringBody f rest5).map fun p =>
          (Char.ofNat (0x10000 + (x1 * 4096 + x2 * 256 + x3 * 16 + x4 - 0xD800) * 0x400 +
            (x5 * 4096 + x6 * 256 + x7 * 16 + x8 - 0xDC00)) :: p.1, p.2) := by
  show (match hexVal (hexDigitChar x1), hexVal (hexDigitChar x2),
        hexVal (hexDigitChar x3), hexVal (hexDigitChar x4) with
    | some va, some vb, some vc, some vd =>
      let n := va * 4096 + vb * 256 + vc * 16 + vd
      if 0xD800 ≤ n ∧ n ≤ 0xDBFF then
        if ('\\' : Char) = '\\' ∧ ('u' : Char) = 'u' then
          match hexVal (hexDigitChar x5), hexVal (hexDigitChar x6),
              hexVal (hexDigitChar x7), hexVal (hexDigitChar x8) with
          | some wa, some wb, some wc, some wd =>
            let m := wa * 4096 + wb * 256 + wc * 16 + wd
            if 0xDC00 ≤ m ∧ m ≤ 0xDFFF then
              (parseJStringBody f rest5).map fun p =>
                (Char.ofNat (0x10000 + (n - 0xD800) * 0x400 + (m - 0xDC00)) :: p.1, p.2)
            else
              (parseJStringBody f ('\\' :: 'u' :: hexDigitChar x5 :: hexDigitChar x6 ::
                hexDigitChar x7 :: hexDigitChar x8 :: rest5)).map fun p =>
                (Char.ofNat n :: p.1, p.2)
          | _, _, _, _ =>
            (parseJStringBody f ('\\' :: 'u' :: hexDigitChar x5 :: hexDigitChar x6 ::
              hexDigitChar x7 :: hexDigitChar x8 :: rest5)).map fun p =>
              (Char.ofNat n :: p.1, p.2)
        else
          (parseJStringBody f ('\\' :: 'u' :: hexDigitChar x5 :: hexDigitChar x6 ::
            hexDigitChar x7 :: hexDigitChar x8 :: rest5)).map fun p =>
            (Char.ofNat n :: p.1, p.2)
      else
        (parseJStringBody f ('\\' :: 'u' :: hexDigitChar x5 :: hexDigitChar x6 ::
          hexDigitChar x7 :: hexDigitChar x8 :: rest5)).map fun p =>
          (Char.ofNat n :: p.1, p.2)
    | _, _, _, _ => none)
      = (parseJStringBody f rest5).map fun p =>
          (Char.ofNat (0x10000 + (x1 * 4096 + x2 * 256 + x3 * 16 + x4 - 0xD800) * 0x400 +
            (x5 * 4096 + x6 * 256 + x7 * 16 + x8 - 0xDC00)) :: p.1, p.2)
  rw [hexVal_hexDigitChar h1, hexVal_hexDigitChar h2, hexVal_hexDigitChar h3,
    hexVal_hexDigitChar h4]
  show (if 0xD800 ≤ x1 * 4096 + x2 * 256 + x3 * 16 + x4 ∧
          x1 * 4096 + x2 * 256 + x3 * 16 + x4 ≤ 0xDBFF then
      if ('\\' : Char) = '\\' ∧ ('u' : Char) = 'u' then
        match hexVal (hexDigitChar x5), hexVal (hexDigitChar x6),
            hexVal (hexDigitChar x7), hexVal (hexDigitChar x8) with
        | some wa, some wb, some wc, some wd =>
          let m := wa * 4096 + wb * 256 + wc * 16 + wd
          if 0xDC00 ≤ m ∧ m ≤ 0xDFFF then
            (parseJStringBody f rest5).map fun p =>
              (Char.ofNat (0x10000 + (x1 * 4096 + x2 * 256 + x3 * 16 + x4 - 0xD800) * 0x400 +
                (m - 0xDC00)) :: p.1, p.2)
          else
            (parseJStringBody f ('\\' :: 'u' :: hexDigitChar x5 :: hexDigitChar x6 ::
              hexDigitChar x7 :: hexDigitChar x8 :: rest5)).map fun p =>
              (Char.ofNat (x1 * 4096 + x2 * 256 + x3 * 16 + x4) :: p.1, p.2)
        | _, _, _, _ =>
          (parseJStringBody f ('\\' :: 'u' :: hexDigitChar x5 :: hexDigitChar x6 ::
            hexDigitChar x7 :: hexDigitChar x8 :: rest5)).map fun p =>
            (Char.ofNat (x1 * 4096 + x2 * 256 + x3 * 16 + x4) :: p.1, p.2)
      else
        (parseJStringBody f ('\\' :: 'u' :: hexDigitChar x5 :: hexDigitChar x6 ::
          hexDigitChar x7 :: hexDigitChar x8 :: rest5)).map fun p =>
          (Char.ofNat (x1 * 4096 + x2 * 256 + x3 * 16 + x4) :: p.1, p.2)
    else
      (parseJStringBody f ('\\' :: 'u' :: hexDigitChar x5 :: hexDigitChar x6 ::
        hexDigitChar x7 :: hexDigitChar x8 :: rest5)).map fun p =>
        (Char.ofNat (x1 * 4096 + x2 * 256 + x3 * 16 + x4) :: p.1, p.2))
      = (parseJStringBody f rest5).map fun p =>
          (Char.ofNat (0x10000 + (x1 * 4096 + x2 * 256 + x3 * 16 + x4 - 0xD800) * 0x400 +
            (x5 * 4096 + x6 * 256 + x7 * 16 + x8 - 0xDC00)) :: p.1, p.2)
  rw [if_pos hhi, if_pos (⟨rfl, rfl⟩ : ('\\' : Char) = '\\' ∧ ('u' : Char) = 'u'),
    hexVal_hexDigitChar h5, hexVal_hexDigitChar h6, hexVal_hexDigitChar h7,
    hexVal_hexDigitChar h8]
  show (if 0xDC00 ≤ x5 * 4096 + x6 * 256 + x7 * 16 + x8 ∧
          x5 * 4096 + x6 * 256 + x7 * 16 + x8 ≤ 0xDFFF then
      (parseJStringBody f rest5).map fun p =>
        (Char.ofNat (0x10000 + (x1 * 4096 + x2 * 256 + x3 * 16 + x4 - 0xD800) * 0x400 +
          (x5 * 4096 + x6 * 256 + x7 * 16 + x8 - 0xDC00)) :: p.1, p.2)
    else
      (parseJStringBody f ('\\' :: 'u' :: hexDigitChar x5 :: hexDigitChar x6 ::
        hexDigitChar x7 :: hexDigitChar x8 :: rest5)).map fun p =>
        (Char.ofNat (x1 * 4096 + x2 * 256 + x3 * 16 + x4) :: p.1, p.2)) = _
  rw [if_pos hlo]

theorem parseJStringBody_escape (cs : List Char) : ∀ (fuel : ℕ) (rest : List Char),
    (escapeChars cs).length + 1 ≤ fuel →
    parseJStringBody fuel (escapeChars cs ++ '"' :: rest) = some (cs, rest) := by
  induction cs with
  | nil =>
    intro fuel rest hfuel
    cases fuel with
    | zero => omega
    | succ f => exact pjs_quote f rest
  | cons c cs ih =>
    intro fuel rest hfuel
    simp only [escapeChars, List.length_append] at hfuel ⊢
    rw [List.append_assoc]
    by_cases hc1 : c = '"'
    · subst hc1
      cases fuel with
      | zero => simp [escapeChar] at hfuel
      | succ f =>
        rw [show escapeChar '"' ++ (escapeChars cs ++ '"' :: rest)
            = '\\' :: '"' :: (escapeChars cs ++ '"' :: rest) from rfl,
          pjs_esc_quote, ih f rest (by have h2 : (escapeChar '"').length = 2 := rfl; omega)]
        rfl
    · by_cases hc2 : c = '\\'
      · subst hc2
        cases fuel with
        | zero => simp [escapeChar] at hfuel
        | succ f =>
          rw [show escapeChar '\\' ++ (escapeChars cs ++ '"' :: rest)
              = '\\' :: '\\' :: (escapeChars cs ++ '"' :: rest) from rfl,
            pjs_esc_backslash, ih f rest (by have h2 : (escapeChar '\\').length = 2 := rfl; omega)]
          rfl
      · by_cases hc3 : c = '\n'
        · subst hc3
          cases fuel with
          | zero => simp [escapeChar] at hfuel
          | succ f =>
            rw [show escapeChar '\n' ++ (escapeChars cs ++ '"' :: rest)
                = '\\' :: 'n' :: (escapeChars cs ++ '"' :: rest) from rfl,
              pjs_esc_n, ih f rest (by have h2 : (escapeChar '\n').length = 2 := rfl; omega)]
            rfl
        · by_cases hc4 : c = '\t'
          · subst hc4
            cases fuel with
            | zero => simp [escapeChar] at hfuel
            | succ f =>
              rw [show escapeChar '\t' ++ (escapeChars cs ++ '"' :: rest)
                  = '\\' :: 't' :: (escapeChars cs ++ '"' :: rest) from rfl,
                pjs_esc_t, ih f rest (by have h2 : (escapeChar '\t').length = 2 := rfl; omega)]
              rfl
          · by_cases hc5 : c = '\x0d'
            · subst hc5
              cases fuel with
              | zero => simp [escapeChar] at hfuel
              | succ f =>
                rw [show escapeChar '\x0d' ++ (escapeChars cs ++ '"' :: rest)
                    = '\\' :: 'r' :: (escapeChars cs ++ '"' :: rest) from rfl,
                  pjs_esc_r, ih f rest (by have h2 : (escapeChar '\x0d').length = 2 := rfl; omega)]
                rfl
            · by_cases hc6 : c.toNat = 8
              · have hesc : escapeChar c = ['\\', 'b'] := by
                  rw [escapeChar, if_neg hc1, if_neg hc2, if_neg hc3, if_neg hc4,
                    if_neg hc5, if_pos hc6]
                rw [hesc]
                cases fuel with
                | zero => rw [hesc] at hfuel; simp at hfuel
                | succ f =>
                  rw [show (['\\', 'b'] : List Char) ++ (escapeChars cs ++ '"' :: rest)
                      = '\\' :: 'b' :: (escapeChars cs ++ '"' :: rest) from rfl,
                    pjs_esc_b, ih f rest (by rw [hesc] at hfuel; simp at hfuel; omega),
                    char_eq_of_toNat hc6]
                  rfl
              · by_cases hc7 : c.toNat = 12
                · have hesc : escapeChar c = ['\\', 'f'] := by
                    rw [escapeChar, if_neg hc1, if_neg hc2, if_neg hc3, if_neg hc4,
                      if_neg hc5, if_neg hc6, if_pos hc7]
                  rw [hesc]
                  cases fuel with
                  | zero => rw [hesc] at hfuel; simp at hfuel
                  | succ f =>
                    rw [show (['\\', 'f'] : List Char) ++ (escapeChars cs ++ '"' :: rest)
                        = '\\' :: 'f' :: (escapeChars cs ++ '"' :: rest) from rfl,
                      pjs_esc_f, ih f rest (by rw [hesc] at hfuel; simp at hfuel; omega),
                      char_eq_of_toNat hc7]
                    rfl
                · by_cases hc8 : c.toNat < 0x20 ∨ (0x7E < c.toNat ∧ c.toNat < 0x10000)
                  · have hesc : escapeChar c = '\\' :: 'u' :: hex4 c.toNat := by
                      rw [escapeChar, if_neg hc1, if_neg hc2, if_neg hc3, if_neg hc4,
                        if_neg hc5, if_neg hc6, if_neg hc7, if_pos hc8]
                    rw [hesc]
                    cases fuel with
                    | zero => rw [hesc] at hfuel; simp [hex4] at hfuel
                    | succ f =>
                      rw [show ('\\' :: 'u' :: hex4 c.toNat) ++ (escapeChars cs ++ '"' :: rest)
                          = '\\' :: 'u' :: hexDigitChar (c.toNat / 4096 % 16) ::
                            hexDigitChar (c.toNat / 256 % 16) :: hexDigitChar (c.toNat / 16 % 16) ::
                            hexDigitChar (c.toNat % 16) :: (escapeChars cs ++ '"' :: rest) from rfl]
                      have hns : ¬(0xD800 ≤ c.toNat / 4096 % 16 * 4096 + c.toNat / 256 % 16 * 256 +
                          c.toNat / 16 % 16 * 16 + c.toNat % 16 ∧
                          c.toNat / 4096 % 16 * 4096 + c.toNat / 256 % 16 * 256 +
                          c.toNat / 16 % 16 * 16 + c.toNat % 16 ≤ 0xDBFF) := by
                        have hval : c.toNat / 4096 % 16 * 4096 + c.toNat / 256 % 16 * 256 +
                            c.toNat / 16 % 16 * 16 + c.toNat % 16 = c.toNat := by
                          omega
                        rw [hval]
                        rcases char_toNat_valid c with h | h
                        · omega
                        · omega
                      rw [pjs_u_bmp f _ _ _ _ (by omega) (by omega) (by omega) (by omega)
                        _ hns, ih f rest (by rw [hesc] at hfuel; simp [hex4] at hfuel; omega)]
                      have hval : c.toNat / 4096 % 16 * 4096 + c.toNat / 256 % 16 * 256 +
                          c.toNat / 16 % 16 * 16 + c.toNat % 16 = c.toNat := by
                        omega
                      rw [hval, char_eq_of_toNat rfl]
                      rfl
                  · by_cases hc9 : 0x10000 ≤ c.toNat
                    · have hub := char_toNat_lt c
                      have hesc : escapeChar c =
                          ('\\' :: 'u' :: hex4 (0xD800 + (c.toNat - 0x10000) / 0x400)) ++
                            ('\\' :: 'u' :: hex4 (0xDC00 + (c.toNat - 0x10000) % 0x400)) := by
                        rw [escapeChar, if_neg hc1, if_neg hc2, if_neg hc3, if_neg hc4,
                          if_neg hc5, if_neg hc6, if_neg hc7, if_neg hc8, if_pos hc9]
                      rw [hesc]
                      cases fuel with
                      | zero => rw [hesc] at hfuel; simp [hex4] at hfuel
                      | succ f =>
                        rw [show (('\\' :: 'u' :: hex4 (0xD800 + (c.toNat - 0x10000) / 0x400)) ++
                              ('\\' :: 'u' :: hex4 (0xDC00 + (c.toNat - 0x10000) % 0x400))) ++
                              (escapeChars cs ++ '"' :: rest)
                            = '\\' :: 'u' ::
                              hexDigitChar ((0xD800 + (c.toNat - 0x10000) / 0x400) / 4096 % 16) ::
                              hexDigitChar ((0xD800 + (c.toNat - 0x10000) / 0x400) / 256 % 16) ::
                              hexDigitChar ((0xD800 + (c.toNat - 0x10000) / 0x400) / 16 % 16) ::
                              hexDigitChar ((0xD800 + (c.toNat - 0x10000) / 0x400) % 16) ::
                              '\\' :: 'u' ::
                              hexDigitChar ((0xDC00 + (c.toNat - 0x10000) % 0x400) / 4096 % 16) ::
                              hexDigitChar ((0xDC00 + (c.toNat - 0x10000) % 0x400) / 256 % 16) ::
                              hexDigitChar ((0xDC00 + (c.toNat - 0x10000) % 0x400) / 16 % 16) ::
                              hexDigitChar ((0xDC00 + (c.toNat - 0x10000) % 0x400) % 16) ::
                              (escapeChars cs ++ '"' :: rest) from rfl]
                        rw [pjs_u_pair f _ _ _ _ _ _ _ _ (by omega) (by omega) (by omega)
                          (by omega) (by omega) (by omega) (by omega) (by omega) _
                          (by constructor <;> omega) (by constructor <;> omega)]
                        rw [ih f rest (by rw [hesc] at hfuel; simp [hex4] at hfuel; omega)]
                        have hcomb : 0x10000 +
                            ((0xD800 + (c.toNat - 0x10000) / 0x400) / 4096 % 16 * 4096 +
                             (0xD800 + (c.toNat - 0x10000) / 0x400) / 256 % 16 * 256 +
                             (0xD800 + (c.toNat - 0x10000) / 0x400) / 16 % 16 * 16 +
                             (0xD800 + (c.toNat - 0x10000) / 0x400) % 16 - 0xD800) * 0x400 +
                            ((0xDC00 + (c.toNat - 0x10000) % 0x400) / 4096 % 16 * 4096 +
                             (0xDC00 + (c.toNat - 0x10000) % 0x400) / 256 % 16 * 256 +
                             (0xDC00 + (c.toNat - 0x10000) % 0x400) / 16 % 16 * 16 +
                             (0xDC00 + (c.toNat - 0x10000) % 0x400) % 16 - 0xDC00) = c.toNat := by
                          omega
                        rw [hcomb, char_eq_of_toNat rfl]
                        rfl
                    · have hesc : escapeChar c = [c] := by
                        rw [escapeChar, if_neg hc1, if_neg hc2, if_neg hc3, if_neg hc4,
                          if_neg hc5, if_neg hc6, if_neg hc7, if_neg hc8, if_neg hc9]
                      rw [hesc, List.singleton_append]
                      cases fuel with
                      | zero => rw [hesc] at hfuel; simp at hfuel
                      | succ f =>
                        have hge : ¬(c.toNat < 0x20) := by
                          push_neg at hc8
                          omega
                        rw [pjs_plain f c _ hc1 hc2 hge,
                          ih f rest (by rw [hesc] at hfuel; simp at hfuel; omega)]
                        rfl

theorem parseJString_escape (cs : List Char) (rest : List Char) :
    parseJString (escapeChars cs ++ '"' :: rest) = some (cs, rest) := by
  rw [parseJString]
  apply parseJStringBody_escape
  simp

theorem renderNum_head (q : ℚ) :
    ∃ c l2, renderNum q = c :: l2 ∧ (isDigitChar c = true ∨ c = '-') := by
  simp only [renderNum]
  by_cases hm : (q.num * (((10 ^ decExp q.den : ℕ) : ℤ) / (q.den : ℤ)) : ℤ) < 0
  · rw [if_pos hm]
    exact ⟨'-', _, List.singleton_append, Or.inr rfl⟩
  · rw [if_neg hm, List.nil_append]
    by_cases hk : decExp q.den = 0
    · rw [if_pos hk]
      obtain ⟨c, cs, hr, hd, _⟩ :=
        renderNat_head (q.num * (((10 ^ decExp q.den : ℕ) : ℤ) / (q.den : ℤ))).natAbs
      exact ⟨c, _, by rw [hr, List.cons_append], Or.inl hd⟩
    · rw [if_neg hk]
      obtain ⟨c, cs, hr, hd, _⟩ :=
        renderNat_head ((q.num * (((10 ^ decExp q.den : ℕ) : ℤ) / (q.den : ℤ))).natAbs / 10 ^ decExp q.den)
      exact ⟨c, _, by rw [hr, List.cons_append], Or.inl hd⟩

theorem dumpsVal_head (v : JValue) : ∃ c l2, dumpsVal v = c :: l2 ∧
    ¬(c = ' ' ∨ c = '\t' ∨ c = '\n' ∨ c = '\x0d') ∧ c ≠ ']' ∧ c ≠ '}' := by
  cases v with
  | num q =>
    obtain ⟨c, l2, hr, hd⟩ := renderNum_head q
    refine ⟨c, l2, hr, ?_, ?_, ?_⟩
    · rcases hd with hd | hd
      · exact notWs_of_digit hd
      · subst hd; decide
    · rcases hd with hd | hd
      · intro hc; subst hc; exact absurd hd (by decide)
      · subst hd; decide
    · rcases hd with hd | hd
      · intro hc; subst hc; exact absurd hd (by decide)
      · subst hd; decide
  | bool b => cases b with
    | true => refine ⟨'t', _, rfl, ?_, ?_, ?_⟩ <;> decide
    | false => refine ⟨'f', _, rfl, ?_, ?_, ?_⟩ <;> decide
  | null => refine ⟨'n', _, rfl, ?_, ?_, ?_⟩ <;> decide
  | str s => refine ⟨'"', _, rfl, ?_, ?_, ?_⟩ <;> decide
  | arr es => refine ⟨'[', _, rfl, ?_, ?_, ?_⟩ <;> decide
  | obj ms => refine ⟨'{', _, rfl, ?_, ?_, ?_⟩ <;> decide

theorem insertMember_not_mem (ms : List (String × JValue)) (k : String) (v : JValue)
    (h : k ∉ ms.map Prod.fst) : insertMember ms k v = ms ++ [(k, v)] := by
  induction ms with
  | nil => rfl
  | cons kv rest ih =>
    obtain ⟨k1, v1⟩ := kv
    simp only [List.map_cons, List.mem_cons] at h
    push_neg at h
    rw [insertMember, if_neg (fun hc => h.1 hc.symm), ih h.2]
    rfl

theorem dedup_go (ms : List (String × JValue)) : ∀ acc,
    (((acc ++ ms).map Prod.fst).Nodup) →
    ms.foldl (fun a kv => insertMember a kv.1 kv.2) acc = acc ++ ms := by
  induction ms with
  | nil => intro acc _; simp
  | cons kv rest ih =>
    intro acc hnd
    obtain ⟨k, v⟩ := kv
    have hshape : (acc ++ [(k, v)]) ++ rest = acc ++ (k, v) :: rest := by simp
    have h1 : k ∉ acc.map Prod.fst := by
      intro hmem
      simp only [List.map_append, List.map_cons, List.nodup_append] at hnd
      exact hnd.2.2 hmem (List.mem_cons_self _ _)
    simp only [List.foldl_cons]
    rw [insertMember_not_mem acc k v h1,
        ih (acc ++ [(k, v)]) (by rw [hshape]; exact hnd), hshape]

theorem dedupMembers_nodup (ms : List (String × JValue))
    (h : (ms.map Prod.fst).Nodup) : dedupMembers ms = ms := by
  have hg := dedup_go ms [] (by simpa using h)
  simpa [dedupMembers] using hg

theorem jsize_pos (v : JValue) : 1 ≤ jsize v := by
  cases v <;> simp [jsize]

theorem jsize_le_dumps_aux : ∀ n : ℕ,
    (∀ v : JValue, jsize v ≤ n → jsize v ≤ (dumpsVal v).length) ∧
    (∀ es : List JValue, jsizeElems es ≤ n → jsizeElems es ≤ (dumpsElems es).length + 1) ∧
    (∀ ms : List (String × JValue), jsizeMembers ms ≤ n →
      jsizeMembers ms ≤ (dumpsMembers ms).length + 1) := by
  intro n
  induction n using Nat.strong_induction_on with
  | _ n ih =>
    refine ⟨?_, ?_, ?_⟩
    · intro v hn
      cases v with
      | null => decide
      | bool b => cases b <;> decide
      | num q =>
        obtain ⟨c, l2, hr, _⟩ := renderNum_head q
        simp [jsize, dumpsVal, hr]
      | str s => simp [jsize, dumpsVal, encodeJString]
      | arr es =>
        have hpos : 1 ≤ n := le_trans (jsize_pos (.arr es)) hn
        have hsz : jsizeElems es ≤ n - 1 := by simp only [jsize] at hn; omega
        have hB := (ih (n - 1) (by omega)).2.1 es hsz
        simp only [jsize, dumpsVal, List.length_cons, List.length_append, List.length_singleton]
        omega
      | obj ms =>
        have hpos : 1 ≤ n := le_trans (jsize_pos (.obj ms)) hn
        have hsz : jsizeMembers ms ≤ n - 1 := by simp only [jsize] at hn; omega
        have hC := (ih (n - 1) (by omega)).2.2 ms hsz
        simp only [jsize, dumpsVal, List.length_cons, List.length_append, List.length_singleton]
        omega
    · intro es hn
      cases es with
      | nil => simp [jsizeElems, dumpsElems]
      | cons e rest =>
        have hpos : 1 ≤ n := by simp only [jsizeElems] at hn; omega
        have hA := (ih (n - 1) (by omega)).1 e (by simp only [jsizeElems] at hn; omega)
        cases rest with
        | nil =>
          simp only [jsizeElems, dumpsElems]
          omega
        | cons e2 rest2 =>
          have hB := (ih (n - 1) (by omega)).2.1 (e2 :: rest2)
            (by simp only [jsizeElems] at hn ⊢; omega)
          simp only [jsizeElems, dumpsElems, List.length_append, List.length_cons] at hB ⊢
          omega
    · intro ms hn
      cases ms with
      | nil => simp [jsizeMembers, dumpsMembers]
      | cons m rest =>
        obtain ⟨k, v⟩ := m
        have hpos : 1 ≤ n := by simp only [jsizeMembers] at hn; omega
        have hA := (ih (n - 1) (by omega)).1 v (by simp only [jsizeMembers] at hn; omega)
        cases rest with
        | nil =>
          simp only [jsizeMembers, dumpsMembers, List.length_append, List.length_cons]
          omega
        | cons m2 rest2 =>
          obtain ⟨k2, v2⟩ := m2
          have hC := (ih (n - 1) (by omega)).2.2 ((k2, v2) :: rest2)
            (by simp only [jsizeMembers] at hn ⊢; omega)
          simp only [jsizeMembers, dumpsMembers, List.length_append, List.length_cons] at hC ⊢
          omega

theorem jsize_le_dumps (v : JValue) : jsize v ≤ (dumpsVal v).length :=
  (jsize_le_dumps_aux (jsize v)).1 v le_rfl

theorem parse_dumps_rt : ∀ fuel : ℕ,
    (∀ (v : JValue) (rest : List Char), pyRepresentable v = true → jsize v ≤ fuel →
      stopsNumber rest = true →
      parseValue fuel (dumpsVal v ++ rest) = some (v, rest)) ∧
    (∀ (es : List JValue) (rest : List Char), es ≠ [] → pyRepresentableElems es = true →
      jsizeElems es ≤ fuel →
      parseElement1 fuel (dumpsElems es ++ ']' :: rest) = some (es, rest)) ∧
    (∀ (ms : List (String × JValue)) (rest : List Char), ms ≠ [] →
      pyRepresentableMembers ms = true → jsizeMembers ms ≤ fuel →
      parseMember1 fuel (dumpsMembers ms ++ '}' :: rest) = some (ms, rest)) := by
  intro fuel
  induction fuel using Nat.strong_induction_on with
  | _ fuel ih =>
    refine ⟨?_, ?_, ?_⟩
    · intro v rest hrep hsz hstop
      obtain ⟨f, rfl⟩ : ∃ f, fuel = f + 1 := ⟨fuel - 1, by have := jsize_pos v; omega⟩
      have hf : f < f + 1 := Nat.lt_succ_self f
      cases v with
      | null => exact parseValue_null f rest
      | bool b =>
        cases b with
        | true => exact parseValue_true f rest
        | false => exact parseValue_false f rest
      | num q =>
        have hdvd : q.den ∣ 10 ^ q.den := by
          simpa [pyRepresentable] using hrep
        obtain ⟨c, l2, hr, hc⟩ := renderNum_head q
        have hnum : parseNumber (renderNum q ++ rest) = some (q, rest) :=
          parseNumber_renderNum q hdvd rest hstop
        rw [hr, List.cons_append] at hnum
        rw [show dumpsVal (.num q) = renderNum q from rfl, hr, List.cons_append]
        exact parseValue_num f c (l2 ++ rest) rest q hc hnum
      | str s =>
        have h1 : dumpsVal (.str s) ++ rest = '"' :: (escapeChars s.data ++ '"' :: rest) := by
          show ('"' :: (escapeChars s.data ++ ['"'])) ++ rest = _
          rw [List.cons_append, List.append_assoc]
          rfl
        rw [h1]
        have h2 := parseValue_str f (escapeChars s.data ++ '"' :: rest) rest s.data
          (parseJString_escape s.data rest)
        rw [h2]
      | arr es =>
        cases es with
        | nil => exact parseValue_arr_empty f rest
        | cons e es2 =>
          have hszE : jsizeElems (e :: es2) ≤ f := by simp only [jsize] at hsz; omega
          have hrepE : pyRepresentableElems (e :: es2) = true := by
            simpa [pyRepresentable] using hrep
          have hElems := (ih f hf).2.1 (e :: es2) rest (by simp) hrepE hszE
          obtain ⟨c, l2, hhd, hw, hb, _⟩ := dumpsVal_head e
          obtain ⟨t, hdEq⟩ : ∃ t, dumpsElems (e :: es2) = dumpsVal e ++ t := by
            cases es2 with
            | nil => exact ⟨[], by simp [dumpsElems]⟩
            | cons e2 es3 => exact ⟨_, rfl⟩
          have hinput : dumpsVal (.arr (e :: es2)) ++ rest
              = '[' :: (dumpsElems (e :: es2) ++ ']' :: rest) := by
            show ('[' :: (dumpsElems (e :: es2) ++ [']'])) ++ rest = _
            rw [List.cons_append, List.append_assoc]
            rfl
          rw [hinput, hdEq, hhd]
          simp only [List.cons_append, List.append_assoc]
          refine parseValue_arr_step f c _ rest (e :: es2) hw hb ?_
          rw [hdEq, hhd] at hElems
          simp only [List.cons_append, List.append_assoc] at hElems
          exact hElems
      | obj ms =>
        cases ms with
        | nil => exact parseValue_obj_empty f rest
        | cons m ms2 =>
          obtain ⟨k, v⟩ := m
          have hnd : (((k, v) :: ms2).map Prod.fst).Nodup
              ∧ pyRepresentableMembers ((k, v) :: ms2) = true := by
            have h := hrep
            simp only [pyRepresentable, Bool.and_eq_true, decide_eq_true_eq] at h
            exact h
          have hszM : jsizeMembers ((k, v) :: ms2) ≤ f := by
            simp only [jsize] at hsz; omega
          have hMem := (ih f hf).2.2 ((k, v) :: ms2) rest (by simp) hnd.2 hszM
          obtain ⟨t, hdM⟩ : ∃ t, dumpsMembers ((k, v) :: ms2) = '"' :: t := by
            cases ms2 with
            | nil => exact ⟨_, rfl⟩
            | cons m2 ms3 => exact ⟨_, rfl⟩
          have hinput : dumpsVal (.obj ((k, v) :: ms2)) ++ rest
              = '{' :: (dumpsMembers ((k, v) :: ms2) ++ '}' :: rest) := by
            show ('{' :: (dumpsMembers ((k, v) :: ms2) ++ ['}'])) ++ rest = _
            rw [List.cons_append, List.append_assoc]
            rfl
          rw [hinput, hdM]
          rw [hdM] at hMem
          simp only [List.cons_append] at hMem ⊢
          have hstep := parseValue_obj_step f (t ++ '}' :: rest) rest ((k, v) :: ms2) hMem
          rw [hstep, dedupMembers_nodup _ hnd.1]
    · intro es rest hne hrep hsz
      cases es with
      | nil => exact absurd rfl hne
      | cons e es2 =>
        obtain ⟨f, rfl⟩ : ∃ f, fuel = f + 1 :=
          ⟨fuel - 1, by simp only [jsizeElems] at hsz; omega⟩
        have hf : f < f + 1 := Nat.lt_succ_self f
        have hrepv : pyRepresentable e = true ∧ pyRepresentableElems es2 = true := by
          simpa [pyRepresentableElems, Bool.and_eq_true] using hrep
        have hszv : jsize e ≤ f := by simp only [jsizeElems] at hsz; omega
        cases es2 with
        | nil =>
          have hv := (ih f hf).1 e (']' :: rest) hrepv.1 hszv
            (show stopsNumber (']' :: rest) = true from rfl)
          rw [show dumpsElems [e] ++ ']' :: rest = dumpsVal e ++ ']' :: rest from rfl]
          exact parseElement1_last f _ e rest hv
        | cons e2 es3 =>
          have hrest := (ih f hf).2.1 (e2 :: es3) rest (by simp) hrepv.2
            (by simp only [jsizeElems] at hsz ⊢; omega)
          have hv := (ih f hf).1 e
            (',' :: ' ' :: (dumpsElems (e2 :: es3) ++ ']' :: rest)) hrepv.1 hszv
            (show stopsNumber (',' :: ' ' :: (dumpsElems (e2 :: es3) ++ ']' :: rest)) = true
              from rfl)
          have hshape : dumpsElems (e :: e2 :: es3) ++ ']' :: rest
              = dumpsVal e ++ ',' :: ' ' :: (dumpsElems (e2 :: es3) ++ ']' :: rest) := by
            show (dumpsVal e ++ ',' :: ' ' :: dumpsElems (e2 :: es3)) ++ ']' :: rest = _
            rw [List.append_assoc]
            simp only [List.cons_append]
          rw [hshape]
          exact parseElement1_more f _ e _ (e2 :: es3) rest hv hrest
    · intro ms rest hne hrep hsz
      cases ms with
      | nil => exact absurd rfl hne
      | cons m ms2 =>
        obtain ⟨k, v⟩ := m
        obtain ⟨f, rfl⟩ : ∃ f, fuel = f + 1 :=
          ⟨fuel - 1, by simp only [jsizeMembers] at hsz; omega⟩
        have hf : f < f + 1 := Nat.lt_succ_self f
        have hrepv : pyRepresentable v = true ∧ pyRepresentableMembers ms2 = true := by
          simpa [pyRepresentableMembers, Bool.and_eq_true] using hrep
        have hszv : jsize v ≤ f := by simp only [jsizeMembers] at hsz; omega
        cases ms2 with
        | nil =>
          have hv := (ih f hf).1 v ('}' :: rest) hrepv.1 hszv
            (show stopsNumber ('}' :: rest) = true from rfl)
          have hk := parseJString_escape k.data (':' :: ' ' :: (dumpsVal v ++ '}' :: rest))
          have hshape : dumpsMembers [(k, v)] ++ '}' :: rest
              = '"' :: (escapeChars k.data
                ++ '"' :: ':' :: ' ' :: (dumpsVal v ++ '}' :: rest)) := by
            show (('"' :: (escapeChars k.data ++ ['"'])) ++ ':' :: ' ' :: dumpsVal v)
              ++ '}' :: rest = _
            simp only [List.cons_append, List.append_assoc, List.nil_append]
          rw [hshape]
          have hstep := parseMember1_last f _ k.data _ v rest hk hv
          rw [hstep]
        | cons m2 ms3 =>
          obtain ⟨k2, v2⟩ := m2
          have hrest := (ih f hf).2.2 ((k2, v2) :: ms3) rest (by simp) hrepv.2
            (by simp only [jsizeMembers] at hsz ⊢; omega)
          have hv := (ih f hf).1 v
            (',' :: ' ' :: (dumpsMembers ((k2, v2) :: ms3) ++ '}' :: rest)) hrepv.1 hszv
            (show stopsNumber
              (',' :: ' ' :: (dumpsMembers ((k2, v2) :: ms3) ++ '}' :: rest)) = true from rfl)
          have hk := parseJString_escape k.data
            (':' :: ' ' :: (dumpsVal v
              ++ ',' :: ' ' :: (dumpsMembers ((k2, v2) :: ms3) ++ '}' :: rest)))
          have hshape : dumpsMembers ((k, v) :: (k2, v2) :: ms3) ++ '}' :: rest
              = '"' :: (escapeChars k.data ++ '"' :: ':' :: ' ' :: (dumpsVal v
                ++ ',' :: ' ' :: (dumpsMembers ((k2, v2) :: ms3) ++ '}' :: rest))) := by
            show ((('"' :: (escapeChars k.data ++ ['"'])) ++ ':' :: ' ' :: dumpsVal v)
              ++ ',' :: ' ' :: dumpsMembers ((k2, v2) :: ms3)) ++ '}' :: rest = _
            simp only [List.cons_append, List.append_assoc, List.nil_append]
          rw [hshape]
          have hstep := parseMember1_more f _ k.data _ v _ ((k2, v2) :: ms3) rest hk hv hrest
          rw [hstep]

theorem loads_dumps (v : JValue) (hrep : pyRepresentable v = true) :
    loads (dumps v) = some v := by
  have hsz : jsize v ≤ (dumpsVal v).length + 1 :=
    le_trans (jsize_le_dumps v) (Nat.le_succ _)
  have hA := (parse_dumps_rt ((dumpsVal v).length + 1)).1 v [] hrep hsz rfl
  rw [List.append_nil] at hA
  show (match parseValue ((dumpsVal v).length + 1) (dumpsVal v) with
    | some (v2, rest) => if skipWs rest = [] then some v2 else none
    | none => none) = some v
  rw [hA]
  rfl

/-- C8.  Round-trip: the `InstanceSummary` record produced by the resolver
(success or failure shape alike) is encoded with `json.dumps` into the
response-body string on line 78; decoding that string back with `json.loads`
yields the summary record again, field for field.  Stated for every resolver
output in the image of Python's values (`pyRepresentable`: its numbers are
floats with finite decimal expansions, its dicts have no duplicate keys),
which covers every value the program can hold. -/
theorem spec_c8_roundtrip (env : Env) (instance_id : JValue)
    (h : pyRepresentable (.obj (get_ec2_cpu_utilization env instance_id).1) = true) :
    loads (dumps (.obj (get_ec2_cpu_utilization env instance_id).1))
      = some (.obj (get_ec2_cpu_utilization env instance_id).1) :=
  loads_dumps _ h

theorem spec_c8_witness :
    (let env : Env :=
      { describe_instances := fun _ => Except.error "An error occurred"
        get_metric_statistics := fun _ => Except.error "unreachable" };
    pyRepresentable (.obj (get_ec2_cpu_utilization env (.str "i-999")).1) = true
      ∧ loads (dumps (.obj (get_ec2_cpu_utilization env (.str "i-999")).1))
          = some (.obj (get_ec2_cpu_utilization env (.str "i-999")).1)) :=
  ⟨rfl, spec_c8_roundtrip _ (.str "i-999") rfl⟩

end CostDataRetriever
